import Mathlib

/-!
Verification of the printshopinvoice backend core: line-item resolution,
totals/discount calculation, document persistence and estimate-to-invoice
conversion, as implemented in `src/routes/estimates.js`,
`src/routes/invoices.js` and `src/routes/storeInfoRoutes.js`.

JavaScript numbers are modelled exactly by rationals extended with the
special values NaN / Infinity / -Infinity (`JNum`); arithmetic on finite
values is exact (no rounding), which matches the spec's
"exact to floating-point tolerance" reading.  Loosely-typed request
fields are modelled by `JsVal`.  String-to-number coercion is modelled
for plain decimal literals (optional sign, digits, optional fraction);
exotic JS forms (hex, exponents, surrounding whitespace) are outside the
modelled input subset and map to NaN.
-/

namespace PrintShop

/-- JS number: a finite rational or one of the IEEE special values. -/
inductive JNum where
  | fin (q : ℚ)
  | nan
  | inf
  | ninf
deriving DecidableEq, Repr

/-- Loosely-typed JS value as it appears in a JSON request body. -/
inductive JsVal where
  | undef
  | nullv
  | bool (b : Bool)
  | jnum (n : JNum)
  | str (s : String)
  | objv (data : String)
deriving DecidableEq, Repr

namespace JNum

/-- JS truthiness of a number: `0` and `NaN` are falsy. -/
def truthyN : JNum → Bool
  | .fin q => q != 0
  | .nan => false
  | .inf => true
  | .ninf => true

/-- JS `+` on numbers (exact on finite values). -/
def jadd : JNum → JNum → JNum
  | .fin a, .fin b => .fin (a + b)
  | .nan, _ => .nan
  | _, .nan => .nan
  | .inf, .ninf => .nan
  | .ninf, .inf => .nan
  | .inf, _ => .inf
  | _, .inf => .inf
  | .ninf, _ => .ninf
  | _, .ninf => .ninf

/-- JS unary minus on numbers. -/
def jneg : JNum → JNum
  | .fin q => .fin (-q)
  | .nan => .nan
  | .inf => .ninf
  | .ninf => .inf

/-- JS `-` on numbers. -/
def jsub (a b : JNum) : JNum := jadd a (jneg b)

/-- JS `*` on numbers (exact on finite values). -/
def jmul : JNum → JNum → JNum
  | .fin a, .fin b => .fin (a * b)
  | .nan, _ => .nan
  | _, .nan => .nan
  | .inf, .fin b => if b = 0 then .nan else if 0 < b then .inf else .ninf
  | .fin a, .inf => if a = 0 then .nan else if 0 < a then .inf else .ninf
  | .ninf, .fin b => if b = 0 then .nan else if 0 < b then .ninf else .inf
  | .fin a, .ninf => if a = 0 then .nan else if 0 < a then .ninf else .inf
  | .inf, .inf => .inf
  | .inf, .ninf => .ninf
  | .ninf, .inf => .ninf
  | .ninf, .ninf => .inf

/-- JS `Math.max` on two numbers (NaN-propagating). -/
def jmax : JNum → JNum → JNum
  | .nan, _ => .nan
  | _, .nan => .nan
  | .inf, _ => .inf
  | _, .inf => .inf
  | .ninf, b => b
  | a, .ninf => a
  | .fin a, .fin b => .fin (max a b)

/-- JS `Math.min` on two numbers (NaN-propagating). -/
def jmin : JNum → JNum → JNum
  | .nan, _ => .nan
  | _, .nan => .nan
  | .ninf, _ => .ninf
  | _, .ninf => .ninf
  | .inf, b => b
  | a, .inf => a
  | .fin a, .fin b => .fin (min a b)

/-- JS `x || 0` on a number: NaN and 0 are falsy, hence become 0. -/
def or0 (n : JNum) : JNum := if truthyN n then n else .fin 0

/-- JS `x || 1` on a number: NaN and 0 are falsy, hence become 1. -/
def or1 (n : JNum) : JNum := if truthyN n then n else .fin 1

/-- JS `x / 100` on a number. -/
def div100 : JNum → JNum
  | .fin q => .fin (q / 100)
  | .nan => .nan
  | .inf => .inf
  | .ninf => .ninf

/-- `Number.isFinite`. -/
def isFin : JNum → Bool
  | .fin _ => true
  | _ => false

/-- The rational carried by a finite JS number (0 for the special values). -/
def q : JNum → ℚ
  | .fin x => x
  | _ => 0

end JNum

/-- Digit value of a character. -/
def decDigit (c : Char) : Option ℕ :=
  if c.isDigit then some (c.toNat - 48) else none

/-- Value of an all-digit character list (none if any non-digit). -/
def natOfDigits (l : List Char) : Option ℕ :=
  l.foldl
    (fun acc c =>
      match acc, decDigit c with
      | some n, some d => some (10 * n + d)
      | _, _ => none)
    (some 0)

/-- Assemble a rational from sign, integer part and fraction part. -/
def ratOfParts (sign : Bool) (ip fp : List Char) : Option ℚ :=
  if ip.isEmpty && fp.isEmpty then none
  else
    match natOfDigits ip, natOfDigits fp with
    | some i, some f =>
        let mag : ℚ := (i : ℚ) + (f : ℚ) / ((10 : ℚ) ^ fp.length)
        some (if sign then -mag else mag)
    | _, _ => none

/-- Parse a plain decimal literal: optional sign, digits, optional dot
and fraction digits.  Models JS `Number` on such strings. -/
def numOfChars (l : List Char) : Option ℚ :=
  let signBody : Bool × List Char :=
    match l with
    | '-' :: rest => (true, rest)
    | '+' :: rest => (false, rest)
    | _ => (false, l)
  let ip := signBody.2.takeWhile (fun c => c ≠ '.')
  let rest := signBody.2.dropWhile (fun c => c ≠ '.')
  match rest with
  | [] => ratOfParts signBody.1 ip []
  | _ :: fp => ratOfParts signBody.1 ip fp

namespace JsVal

/-- JS truthiness (objects are always truthy). -/
def truthy : JsVal → Bool
  | .undef => false
  | .nullv => false
  | .bool b => b
  | .jnum n => n.truthyN
  | .str s => s ≠ ""
  | .objv _ => true

/-- JS `Number(v)` / unary `+v` coercion.  String inputs are modelled
for plain decimal literals only (see file header). -/
def toNum : JsVal → JNum
  | .undef => .nan
  | .nullv => .fin 0
  | .bool b => .fin (if b then 1 else 0)
  | .jnum n => n
  | .str s =>
      if s = "" then .fin 0
      else
        match numOfChars s.data with
        | some v => .fin v
        | none => .nan
  | .objv _ => .nan

/-- JS `a || b`. -/
def jsOr (a b : JsVal) : JsVal := if a.truthy then a else b

/-- JS `a ?? b`. -/
def nullish : JsVal → JsVal → JsVal
  | .undef, b => b
  | .nullv, b => b
  | a, _ => a

/-- JS `a != null` (loose inequality against null). -/
def notNullish : JsVal → Bool
  | .undef => false
  | .nullv => false
  | _ => true

end JsVal

/-- Decimal rendering of a rational: exact for integers; non-integer
rationals (which never reach a string position on the verified paths)
are rendered as a fraction, where JS would print a decimal expansion. -/
def ratToString (v : ℚ) : String :=
  if v.den = 1 then toString v.num
  else toString v.num ++ "/" ++ toString v.den

/-- The source helper `toString`: empty string on null/undefined, JS
string conversion otherwise (`src/routes/estimates.js` line 9). -/
def toStringJs : JsVal → String
  | .undef => ""
  | .nullv => ""
  | .bool b => if b then "true" else "false"
  | .jnum (.fin v) => ratToString v
  | .jnum .nan => "NaN"
  | .jnum .inf => "Infinity"
  | .jnum .ninf => "-Infinity"
  | .str s => s
  | .objv _ => "[object Object]"

/-- Truncation toward zero of a rational, as decimal-string `parseInt`
behaves on an ordinary finite number. -/
def ratTrunc (v : ℚ) : ℚ := if 0 ≤ v then (⌊v⌋ : ℚ) else (⌈v⌉ : ℚ)

/-- Longest leading digit run interpreted as an integer (none if the
first character is not a digit). -/
def parseIntLead (l : List Char) : Option ℕ :=
  let run := l.takeWhile Char.isDigit
  if run.isEmpty then none else natOfDigits run

/-- JS `parseInt(v, 10)`: convert to string, then parse an optional
sign followed by a leading digit run; NaN otherwise.  Exponent-notation
renderings of extreme numbers are outside the modelled subset. -/
def parseIntJs : JsVal → JNum
  | .jnum (.fin v) => .fin (ratTrunc v)
  | .jnum _ => .nan
  | .str s =>
      match s.data with
      | '-' :: rest =>
          match parseIntLead rest with
          | some n => .fin (-(n : ℚ))
          | none => .nan
      | '+' :: rest =>
          match parseIntLead rest with
          | some n => .fin (n : ℚ)
          | none => .nan
      | l =>
          match parseIntLead l with
          | some n => .fin (n : ℚ)
          | none => .nan
  | _ => .nan

/-- The source helper `clamp` shared by both route files:
`Math.min(Math.max(Number(v) || 0, min), max)`. -/
def clamp (v : JsVal) (lo hi : JNum) : JNum :=
  JNum.jmin (JNum.jmax (JNum.or0 v.toNum) lo) hi

/-- Pure rational clamp, used to state the spec formulas. -/
def clampQ (v lo hi : ℚ) : ℚ := min (max v lo) hi

/-- The source helper `boolish` (`src/routes/estimates.js` lines 10-15,
`src/routes/invoices.js` lines 7-12): strict-equality matches on
0/'0'/'false' and 1/'1'/'true', default otherwise. -/
def boolish (v : JsVal) (d : Bool) : Bool :=
  match v with
  | .bool b => b
  | .jnum (.fin x) => if x = 0 then false else if x = 1 then true else d
  | .str s =>
      if s = "0" ∨ s = "false" then false
      else if s = "1" ∨ s = "true" then true
      else d
  | _ => d

/-- The source helper `toBool` (second estimates variant, lines 583-589):
booleans pass through, null/undefined default, numbers compare to 0
(NaN !== 0 is truthy), strings are false only for false/0/no/off. -/
def toBool (v : JsVal) (d : Bool) : Bool :=
  match v with
  | .bool b => b
  | .nullv => d
  | .undef => d
  | .jnum (.fin x) => x ≠ 0
  | .jnum .nan => true
  | .jnum .inf => true
  | .jnum .ninf => true
  | .str s => ¬ (s.toLower = "false" ∨ s.toLower = "0" ∨
                 s.toLower = "no" ∨ s.toLower = "off")
  | .objv _ => d

/-- JS `String.prototype.slice(0, n)` on the modelled strings. -/
def jsSlice (s : String) (n : ℕ) : String := ⟨s.data.take n⟩

/-- Discount specification type stored on an invoice. -/
inductive DiscType where
  | amount
  | percent
deriving DecidableEq, Repr

/-- Discount-value normalisation at request-parse time
(`src/routes/invoices.js` lines 49-51): `Number(discount_value) || 0`
then clamp to `[0,100]` for percent and `[0,1e12]` for amount. -/
def parseDiscVal (dt : DiscType) (dv : JsVal) : JNum :=
  let d0 := JNum.or0 dv.toNum
  match dt with
  | .percent => clamp (.jnum d0) (.fin 0) (.fin 100)
  | .amount => clamp (.jnum d0) (.fin 0) (.fin (10 ^ 12))

/-- Discount-type normalisation in `POST /api/invoices` (first variant,
line 48): strict equality against the string 'percent'. -/
def parseDiscTypeInv (dt : JsVal) : DiscType :=
  if dt = .str "percent" then .percent else .amount

/-- Discount-type normalisation in `convert-to-invoice` (lines 437-438):
`String(req.body?.discount_type || '').toLowerCase() === 'percent'`. -/
def parseDiscTypeConv (dt : JsVal) : DiscType :=
  if (toStringJs (dt.jsOr (.str ""))).toLower = "percent" then .percent
  else .amount

/-- The final-total discount branch shared (line-for-line) by
`POST /api/invoices` (first variant, lines 128-141) and
`convert-to-invoice` (lines 535-548): amount discounts clamp to the
pre-discount grand total and subtract, percent discounts scale each
subtotal before tax. -/
def invoiceFinalTotal (discType : DiscType) (discVal : JNum) (taxRate : ℚ)
    (taxableSubtotal nonTaxableSubtotal : JNum) : JNum :=
  match discType with
  | .amount =>
      let baseGrand :=
        JNum.jadd (JNum.jmul taxableSubtotal (.fin (1 + taxRate))) nonTaxableSubtotal
      let maxDisc := clamp (.jnum discVal) (.fin 0) baseGrand
      JNum.jmax (.fin 0) (JNum.jsub baseGrand maxDisc)
  | .percent =>
      let pct := JNum.div100 (clamp (.jnum discVal) (.fin 0) (.fin 100))
      let taxableAfter := JNum.jmul taxableSubtotal (JNum.jsub (.fin 1) pct)
      let nonTaxAfter := JNum.jmul nonTaxableSubtotal (JNum.jsub (.fin 1) pct)
      let taxAfter := JNum.jmul taxableAfter (.fin taxRate)
      JNum.jadd (JNum.jadd taxableAfter nonTaxAfter) taxAfter

/-- The final-total discount branch of the second `POST /api/invoices`
variant (lines 497-507): identical percent branch, but the amount
branch subtracts `clamp(discVal, 0, 1e12)` without clamping to the
grand total. -/
def invoiceFinalTotalV2 (discType : DiscType) (discVal : JNum) (taxRate : ℚ)
    (taxableSubtotal nonTaxableSubtotal : JNum) : JNum :=
  match discType with
  | .amount =>
      let baseGrand :=
        JNum.jadd (JNum.jmul taxableSubtotal (.fin (1 + taxRate))) nonTaxableSubtotal
      JNum.jmax (.fin 0)
        (JNum.jsub baseGrand (clamp (.jnum discVal) (.fin 0) (.fin (10 ^ 12))))
  | .percent =>
      let pct := JNum.div100 (clamp (.jnum discVal) (.fin 0) (.fin 100))
      let taxableAfter := JNum.jmul taxableSubtotal (JNum.jsub (.fin 1) pct)
      let nonTaxAfter := JNum.jmul nonTaxableSubtotal (JNum.jsub (.fin 1) pct)
      let taxAfter := JNum.jmul taxableAfter (.fin taxRate)
      JNum.jadd (JNum.jadd taxableAfter nonTaxAfter) taxAfter

/-- Effective tax rate as every totals computation reads it
(`SELECT COALESCE(tax_rate, 0.06) ...` then `Number(rows[0]?.tax_rate
?? 0.06)`): the outer Option is the row's existence, the inner one the
nullable column.  No range check is applied here. -/
def effTaxRateRow (row : Option (Option ℚ)) : ℚ :=
  match row with
  | none => 6 / 100
  | some none => 6 / 100
  | some (some r) => r

/-- `sanitizeTaxRate` (`src/routes/storeInfoRoutes.js` lines 30-34):
non-finite or out-of-`[0,1]` values fall back to 0.06.  Applied on
store-info reads and writes, not in the totals computations. -/
def sanitizeTaxRate (tax_rate : JsVal) : ℚ :=
  match tax_rate.toNum with
  | .fin r => if r < 0 ∨ r > 1 then 6 / 100 else r
  | _ => 6 / 100

/-! ## Persistent data model

One record type per table touched by the document routes.  The nullable
override columns added by `ensureLineOverrideColumns.js` (`unit_price
NUMERIC`, `taxable BOOLEAN`, `display_name TEXT`) are `Option`-typed.
Catalog prices come back from NUMERIC columns as finite numbers, hence
plain rationals.  Request-derived values keep their full JS number
range (`JNum`).  Tables are association lists keyed by the owning
document id; `ORDER BY id ASC` on line rows coincides with insertion
order. -/

/-- A `product_variations` row joined with its `products` row. -/
structure CatalogEntry where
  price : ℚ
  product_name : String
  size : Option String
  accessory : Option String
deriving DecidableEq, Repr

abbrev Catalog := List (ℚ × CatalogEntry)

/-- `SELECT ... FROM product_variations pv JOIN products p ... WHERE pv.id = $1`. -/
def catalogFind (cat : Catalog) (vid : ℚ) : Option CatalogEntry :=
  (cat.find? (fun p => p.1 = vid)).map Prod.snd

/-- Catalog lookup keyed by a JS number (ids are integers in the DB;
non-finite keys match nothing). -/
def catalogFindJ (cat : Catalog) (vid : JNum) : Option CatalogEntry :=
  match vid with
  | .fin v => catalogFind cat v
  | _ => none

/-- An `estimate_items` row. -/
structure EstItemRow where
  product_variation_id : JNum
  quantity : JNum
  unit_price : Option ℚ
  taxable : Option Bool
  display_name : Option String
deriving DecidableEq, Repr

/-- An `invoice_items` row. -/
structure InvItemRow where
  product_variation_id : JNum
  quantity : JNum
  price : Option JNum
  taxable : Option Bool
  display_name : Option String
deriving DecidableEq, Repr

/-- A `custom_estimate_items` / `custom_invoice_items` row. -/
structure CustomItemRow where
  product_name : String
  size : String
  price : JNum
  quantity : JNum
  accessory : String
  taxable : Bool
deriving DecidableEq, Repr

/-- An `estimates` header row (timestamp column not modelled). -/
structure EstimateRow where
  user_id : ℕ
  customer_id : JsVal
  customer_info : JsVal
  notes : String
  total : JNum
deriving DecidableEq, Repr

/-- An `invoices` header row (timestamp column not modelled). -/
structure InvoiceRow where
  user_id : ℕ
  customer_info : JsVal
  total : JNum
  discount_type : DiscType
  discount_value : JNum
  notes : String
deriving DecidableEq, Repr

/-- The relational store visible to the document routes. -/
structure Store where
  estimates : List (ℕ × EstimateRow)
  estimate_items : List (ℕ × EstItemRow)
  custom_estimate_items : List (ℕ × CustomItemRow)
  invoices : List (ℕ × InvoiceRow)
  invoice_items : List (ℕ × InvItemRow)
  custom_invoice_items : List (ℕ × CustomItemRow)
  catalog : Catalog
  store_info : List (ℕ × Option ℚ)
  nextEstimateId : ℕ
  nextInvoiceId : ℕ
deriving DecidableEq, Repr

/-- All line rows of document `i` (in id order). -/
def rowsFor {α : Type} (t : List (ℕ × α)) (i : ℕ) : List α :=
  t.filterMap (fun p => if p.1 = i then some p.2 else none)

/-- `DELETE FROM <line table> WHERE <doc>_id = $1`. -/
def deleteFor {α : Type} (t : List (ℕ × α)) (i : ℕ) : List (ℕ × α) :=
  t.filter (fun p => p.1 ≠ i)

/-- Header row with primary key `i`. -/
def lookupRow {α : Type} (t : List (ℕ × α)) (i : ℕ) : Option α :=
  (t.find? (fun p => p.1 = i)).map Prod.snd

/-- `SELECT ... FROM estimates WHERE id = $1 AND user_id = $2`. -/
def estimateOwned (s : Store) (i uid : ℕ) : Option EstimateRow :=
  match lookupRow s.estimates i with
  | some e => if e.user_id = uid then some e else none
  | none => none

/-- `UPDATE estimates SET total = $1 WHERE id = $2 AND user_id = $3`. -/
def updateEstimateTotal (t : List (ℕ × EstimateRow)) (i uid : ℕ) (v : JNum) :
    List (ℕ × EstimateRow) :=
  t.map (fun p =>
    if p.1 = i ∧ p.2.user_id = uid then (p.1, { p.2 with total := v }) else p)

/-- `UPDATE estimates SET customer_info = $1, ..., notes = $2 WHERE id AND user_id`. -/
def updateEstimateHeader (t : List (ℕ × EstimateRow)) (i uid : ℕ)
    (ci : JsVal) (n : String) : List (ℕ × EstimateRow) :=
  t.map (fun p =>
    if p.1 = i ∧ p.2.user_id = uid
    then (p.1, { p.2 with customer_info := ci, notes := n }) else p)

/-- `UPDATE invoices SET total = $1 WHERE id = $2 AND user_id = $3`. -/
def updateInvoiceTotal (t : List (ℕ × InvoiceRow)) (i uid : ℕ) (v : JNum) :
    List (ℕ × InvoiceRow) :=
  t.map (fun p =>
    if p.1 = i ∧ p.2.user_id = uid then (p.1, { p.2 with total := v }) else p)

/-- `DELETE FROM estimates WHERE id = $1 AND user_id = $2`. -/
def deleteEstimate (t : List (ℕ × EstimateRow)) (i uid : ℕ) :
    List (ℕ × EstimateRow) :=
  t.filter (fun p => ¬ (p.1 = i ∧ p.2.user_id = uid))

/-- Well-formedness a real database guarantees through primary keys and
sequences: header ids are unique and every id in use is below the next
sequence value. -/
def Store.WF (s : Store) : Prop :=
  (s.estimates.map Prod.fst).Nodup
  ∧ (∀ p ∈ s.estimates, p.1 < s.nextEstimateId)
  ∧ (∀ p ∈ s.estimate_items, p.1 < s.nextEstimateId)
  ∧ (∀ p ∈ s.custom_estimate_items, p.1 < s.nextEstimateId)
  ∧ (∀ p ∈ s.invoices, p.1 < s.nextInvoiceId)
  ∧ (∀ p ∈ s.invoice_items, p.1 < s.nextInvoiceId)
  ∧ (∀ p ∈ s.custom_invoice_items, p.1 < s.nextInvoiceId)

instance (s : Store) : Decidable s.WF := by
  unfold Store.WF
  infer_instance

/-! ## Transactions

Every document write runs between `BEGIN` and `COMMIT` on one client;
the `catch` arm issues `ROLLBACK`.  A transaction body is a state
computation over the store with a fuel counter: each issued query
consumes one unit, and exhausted fuel models the first failing query.
`runTxRoute` gives the route's observable outcome: the committed store
on success, the untouched store (rollback) on either an explicit
early-return or a query failure. -/

structure TxSt where
  db : Store
  fuel : ℕ

def Tx (α : Type) : Type := TxSt → Option (α × TxSt)

def Tx.pure {α : Type} (a : α) : Tx α := fun st => some (a, st)

def Tx.bind {α β : Type} (x : Tx α) (f : α → Tx β) : Tx β := fun st =>
  match x st with
  | none => none
  | some (a, st1) => f a st1

instance : Monad Tx where
  pure := Tx.pure
  bind := Tx.bind

/-- One SQL query: consumes fuel, reads and transforms the store. -/
def query {α : Type} (f : Store → α × Store) : Tx α := fun st =>
  match st.fuel with
  | 0 => none
  | Nat.succ n => some ((f st.db).1, ⟨(f st.db).2, n⟩)

/-- A read-only query. -/
def qread {α : Type} (f : Store → α) : Tx α := query (fun db => (f db, db))

/-- A write-only query. -/
def qwrite (f : Store → Store) : Tx Unit := query (fun db => ((), f db))

/-- Run a transactional route body: commit on success, roll back to the
initial store on an explicit error return or on a failed query (which
surfaces the route's catch-arm message). -/
def runTxRoute {α : Type} (s : Store) (fuel : ℕ) (dbErr : String)
    (body : Tx (Except String α)) : Store × Except String α :=
  match body ⟨s, fuel⟩ with
  | none => (s, .error dbErr)
  | some (.error e, _) => (s, .error e)
  | some (.ok a, st) => (st.db, .ok a)

/-! ## Request shapes

Loosely-typed JSON request bodies.  Absent fields are `JsVal.undef`.
The body may carry a `total` field; no route ever reads it (the
persisted total is always recomputed), which the model makes
checkable by carrying the field. -/

/-- One entry of `variationItems`. -/
structure VarItemReq where
  variation_id : JsVal
  variationId : JsVal
  quantity : JsVal
  unit_price : JsVal
  price : JsVal
  taxable : JsVal
  display_name : JsVal
  product_name : JsVal
deriving DecidableEq, Repr

/-- One entry of `customItems`. -/
structure CustomItemReq where
  product_name : JsVal
  productName : JsVal
  size : JsVal
  price : JsVal
  quantity : JsVal
  accessory : JsVal
  taxable : JsVal
deriving DecidableEq, Repr

/-- Body of `POST /api/estimates` and `PUT /api/estimates/:id`. -/
structure EstimateReq where
  customer_id : JsVal
  customer_info : JsVal
  variationItems : List VarItemReq
  customItems : List CustomItemReq
  notes : JsVal
  total : JsVal
deriving DecidableEq, Repr

/-- Body of `POST /api/invoices`. -/
structure InvoiceReq where
  customer_id : JsVal
  customer_info : JsVal
  variationItems : List VarItemReq
  customItems : List CustomItemReq
  discount_type : JsVal
  discount_value : JsVal
  notes : JsVal
  source_estimate_id : JsVal
  total : JsVal
deriving DecidableEq, Repr

/-- Body of `POST /api/estimates/:id/convert-to-invoice`. -/
structure ConvertReq where
  discount_type : JsVal
  discount_value : JsVal
  notes : JsVal
deriving DecidableEq, Repr

/-! ## Line resolution (first estimates variant, lines 82-110) -/

/-- Canonical-catalog fallback row used when the variation reference
does not resolve: `pvRows[0] || { price: 0, product_name: '', size: null }`. -/
def canonicalFallback : CatalogEntry := ⟨0, "", none, none⟩

/-- Body of the `variationItems` loop of the first `POST /api/estimates`
variant (after the skip test): canonical lookup already performed,
producing the row that gets inserted.  The override unit price is used
when `Number.isFinite(+raw.unit_price)`; the label chain is
`raw.display_name || raw.product_name || canonical.product_name || ''`. -/
def resolveVarItemV1 (cat : Catalog) (raw : VarItemReq) : EstItemRow :=
  let qty := (raw.quantity.jsOr (.jnum (.fin 1))).toNum
  let canonical := (catalogFindJ cat raw.variation_id.toNum).getD canonicalFallback
  let effectiveUnit : ℚ :=
    match raw.unit_price.toNum with
    | .fin u => u
    | _ => canonical.price
  let effectiveTaxable := boolish raw.taxable true
  let effectiveName :=
    toStringJs ((raw.display_name.jsOr raw.product_name).jsOr
      ((JsVal.str canonical.product_name).jsOr (.str "")))
  { product_variation_id := raw.variation_id.toNum
    quantity := qty
    unit_price := some effectiveUnit
    taxable := some effectiveTaxable
    display_name := some effectiveName }

/-- Body of the `customItems` loop of the first variant (lines 114-136). -/
def resolveCustomItemV1 (item : CustomItemReq) : CustomItemRow :=
  { product_name := toStringJs item.product_name
    size := toStringJs item.size
    price := (item.price.jsOr (.jnum (.fin 0))).toNum
    quantity := (item.quantity.jsOr (.jnum (.fin 1))).toNum
    accessory := toStringJs item.accessory
    taxable := boolish item.taxable true }

/-- A stored variation line's contribution: `effective_unit_price × quantity`. -/
def estRowAmount (r : EstItemRow) : JNum :=
  JNum.jmul (.fin (r.unit_price.getD 0)) r.quantity

/-- A stored variation line's effective taxable flag. -/
def estRowTaxable (r : EstItemRow) : Bool := r.taxable.getD true

/-- A stored custom line's contribution: `price × quantity`. -/
def customRowAmount (r : CustomItemRow) : JNum := JNum.jmul r.price r.quantity

/-- The variation rows the first variant inserts for a request (lines
whose `variation_id` is falsy are skipped). -/
def v1VarRows (cat : Catalog) (items : List VarItemReq) : List EstItemRow :=
  items.filterMap (fun raw =>
    if raw.variation_id.truthy = false then none
    else some (resolveVarItemV1 cat raw))

/-- Taxable/non-taxable subtotal accumulation over stored variation
rows, exactly as the route loops accumulate. -/
def accumEstRows : List EstItemRow → JNum → JNum → JNum × JNum
  | [], tS, tN => (tS, tN)
  | r :: rest, tS, tN =>
      if estRowTaxable r then accumEstRows rest (JNum.jadd tS (estRowAmount r)) tN
      else accumEstRows rest tS (JNum.jadd tN (estRowAmount r))

/-- Taxable/non-taxable subtotal accumulation over stored custom rows. -/
def accumCustomRows : List CustomItemRow → JNum → JNum → JNum × JNum
  | [], tS, tN => (tS, tN)
  | r :: rest, tS, tN =>
      if r.taxable then accumCustomRows rest (JNum.jadd tS (customRowAmount r)) tN
      else accumCustomRows rest tS (JNum.jadd tN (customRowAmount r))

/-- The no-discount document total: `taxable*(1+rate) + nontaxable`. -/
def noDiscountTotal (taxRate : ℚ) (tS tN : JNum) : JNum :=
  JNum.jadd (JNum.jmul tS (.fin (1 + taxRate))) tN

/-! ## Routes: estimates, first variant -/

/-- The `variationItems` loop of the first `POST`/`PUT` estimates
variant: skip falsy `variation_id`; otherwise one canonical-price
SELECT and one INSERT per line, accumulating the subtotals. -/
def insEstVarItemsV1 (estId : ℕ) : List VarItemReq → JNum → JNum → Tx (JNum × JNum)
  | [], tS, tN => Tx.pure (tS, tN)
  | raw :: rest, tS, tN =>
      if raw.variation_id.truthy = false then insEstVarItemsV1 estId rest tS tN
      else
        Tx.bind (qread (fun db => resolveVarItemV1 db.catalog raw)) (fun row =>
        Tx.bind (qwrite (fun db =>
          { db with estimate_items := db.estimate_items ++ [(estId, row)] }))
          (fun _ =>
            if estRowTaxable row
            then insEstVarItemsV1 estId rest (JNum.jadd tS (estRowAmount row)) tN
            else insEstVarItemsV1 estId rest tS (JNum.jadd tN (estRowAmount row))))

/-- The `customItems` loop of the first estimates variant: one INSERT
per line. -/
def insEstCustomItemsV1 (estId : ℕ) : List CustomItemReq → JNum → JNum → Tx (JNum × JNum)
  | [], tS, tN => Tx.pure (tS, tN)
  | item :: rest, tS, tN =>
      let row := resolveCustomItemV1 item
      Tx.bind (qwrite (fun db =>
        { db with custom_estimate_items := db.custom_estimate_items ++ [(estId, row)] }))
        (fun _ =>
          if row.taxable
          then insEstCustomItemsV1 estId rest (JNum.jadd tS (customRowAmount row)) tN
          else insEstCustomItemsV1 estId rest tS (JNum.jadd tN (customRowAmount row)))

/-- `SELECT COALESCE(tax_rate, 0.06) FROM store_info WHERE user_id = $1`
followed by `Number(rateRows[0]?.tax_rate ?? 0.06)`. -/
def readTaxRate (uid : ℕ) : Tx ℚ :=
  qread (fun db => effTaxRateRow (lookupRow db.store_info uid))

/-- Transaction body of the first `POST /api/estimates` variant
(lines 66-153): insert header with total 0, insert lines, read the tax
rate, update the header total. -/
def createEstimateV1Tx (uid : ℕ) (req : EstimateReq) (cleanNotes : String) :
    Tx (Except String ℕ) :=
  Tx.bind (query (fun db =>
    (db.nextEstimateId,
      { db with
          estimates := db.estimates ++ [(db.nextEstimateId,
            { user_id := uid
              customer_id := req.customer_id.nullish .nullv
              customer_info := req.customer_info.jsOr (.objv "")
              notes := cleanNotes
              total := .fin 0 })]
          nextEstimateId := db.nextEstimateId + 1 }))) (fun estimateId =>
  Tx.bind (insEstVarItemsV1 estimateId req.variationItems (.fin 0) (.fin 0))
    (fun sub1 =>
  Tx.bind (insEstCustomItemsV1 estimateId req.customItems sub1.1 sub1.2)
    (fun sub2 =>
  Tx.bind (readTaxRate uid) (fun taxRate =>
  Tx.bind (qwrite (fun db =>
    let t := noDiscountTotal taxRate sub2.1 sub2.2
    { db with estimates := updateEstimateTotal db.estimates estimateId uid t }))
    (fun _ => Tx.pure (.ok estimateId))))))

/-- `POST /api/estimates` (first variant, lines 51-161): reject notes
longer than 150 characters before any write, then run the transaction. -/
def createEstimateV1 (s : Store) (fuel : ℕ) (uid : ℕ) (req : EstimateReq) :
    Store × Except String ℕ :=
  let cleanNotes := (toStringJs req.notes).trim
  if 150 < cleanNotes.length
  then (s, .error "Notes must be 150 characters or fewer.")
  else runTxRoute s fuel "Error saving estimate" (createEstimateV1Tx uid req cleanNotes)

/-- Transaction body of the first `PUT /api/estimates/:id` variant
(lines 179-267): ownership check, header update, delete-all lines,
re-insert, recompute and persist the total. -/
def updateEstimateV1Tx (uid estimateId : ℕ) (req : EstimateReq)
    (cleanNotes : String) : Tx (Except String ℕ) :=
  Tx.bind (qread (fun db => estimateOwned db estimateId uid)) (fun owned =>
  match owned with
  | none => Tx.pure (.error "Access denied")
  | some _ =>
    Tx.bind (qwrite (fun db =>
      let ci := req.customer_info.jsOr (.objv "")
      { db with estimates := updateEstimateHeader db.estimates estimateId uid ci cleanNotes }))
      (fun _ =>
    Tx.bind (qwrite (fun db =>
      { db with estimate_items := deleteFor db.estimate_items estimateId }))
      (fun _ =>
    Tx.bind (qwrite (fun db =>
      { db with custom_estimate_items :=
          deleteFor db.custom_estimate_items estimateId })) (fun _ =>
    Tx.bind (insEstVarItemsV1 estimateId req.variationItems (.fin 0) (.fin 0))
      (fun sub1 =>
    Tx.bind (insEstCustomItemsV1 estimateId req.customItems sub1.1 sub1.2)
      (fun sub2 =>
    Tx.bind (readTaxRate uid) (fun taxRate =>
    Tx.bind (qwrite (fun db =>
      let t := noDiscountTotal taxRate sub2.1 sub2.2
      { db with estimates := updateEstimateTotal db.estimates estimateId uid t }))
      (fun _ => Tx.pure (.ok estimateId)))))))))

/-- `PUT /api/estimates/:id` (first variant, lines 164-275).  The
`:id` parameter is modelled as the natural number accepted by the
route's `parseInt`/`Number.isFinite` validation. -/
def updateEstimateV1 (s : Store) (fuel : ℕ) (uid estimateId : ℕ)
    (req : EstimateReq) : Store × Except String ℕ :=
  let cleanNotes := (toStringJs req.notes).trim
  if 150 < cleanNotes.length
  then (s, .error "Notes must be 150 characters or fewer.")
  else runTxRoute s fuel "Error updating estimate"
    (updateEstimateV1Tx uid estimateId req cleanNotes)

/-! ## Routes: estimates, second variant (lines 627-869) -/

/-- `Number(it.variation_id ?? it.variationId)` (second variant,
line 660). -/
def v2VariationId (it : VarItemReq) : JNum :=
  (it.variation_id.nullish it.variationId).toNum

/-- `Math.max(1, parseInt(q, 10) || 1)` (second variant quantity
coercion). -/
def qtyV2 (v : JsVal) : JNum := JNum.jmax (.fin 1) (JNum.or1 (parseIntJs v))

/-- `it.unit_price != null ? Number(it.unit_price) : Number(it.price)`
(second variant, line 666): the `price` field doubles as an override. -/
def v2OverridePrice (it : VarItemReq) : JNum :=
  if it.unit_price.notNullish then it.unit_price.toNum else it.price.toNum

/-- `toString(it.display_name || it.product_name || '').trim() || null`. -/
def v2DisplayName (it : VarItemReq) : Option String :=
  let t := (toStringJs ((it.display_name.jsOr it.product_name).jsOr (.str ""))).trim
  if t = "" then none else some t

/-- The `variationItems` loop of the second estimates variant (lines
659-691): skip entries whose coerced variation id is not finite; the
canonical-price SELECT is issued only when no finite override price was
given; then one INSERT per line. -/
def insEstVarItemsV2 (estId : ℕ) : List VarItemReq → JNum → JNum → Tx (JNum × JNum)
  | [], tS, tN => Tx.pure (tS, tN)
  | it :: rest, tS, tN =>
      if (v2VariationId it).isFin = false then insEstVarItemsV2 estId rest tS tN
      else
        let qty := qtyV2 it.quantity
        let displayName := v2DisplayName it
        let taxable := toBool it.taxable true
        Tx.bind
          (match v2OverridePrice it with
           | .fin u => Tx.pure u
           | _ => qread (fun db =>
               (((catalogFindJ db.catalog (v2VariationId it)).map CatalogEntry.price).getD 0)))
          (fun lineUnitPrice =>
        Tx.bind (qwrite (fun db =>
          let row : EstItemRow :=
            { product_variation_id := v2VariationId it
              quantity := qty
              unit_price := some lineUnitPrice
              taxable := some taxable
              display_name := displayName }
          { db with estimate_items := db.estimate_items ++ [(estId, row)] }))
          (fun _ =>
            if taxable
            then insEstVarItemsV2 estId rest
              (JNum.jadd tS (JNum.jmul (.fin lineUnitPrice) qty)) tN
            else insEstVarItemsV2 estId rest tS
              (JNum.jadd tN (JNum.jmul (.fin lineUnitPrice) qty))))

/-- The `customItems` loop body of the second variant (lines 694-716). -/
def resolveCustomItemV2 (it : CustomItemReq) : CustomItemRow :=
  { product_name := toStringJs (it.product_name.jsOr it.productName)
    size := toStringJs it.size
    price := JNum.or0 it.price.toNum
    quantity := qtyV2 it.quantity
    accessory := toStringJs it.accessory
    taxable := toBool it.taxable true }

/-- The `customItems` loop of the second estimates variant. -/
def insEstCustomItemsV2 (estId : ℕ) : List CustomItemReq → JNum → JNum → Tx (JNum × JNum)
  | [], tS, tN => Tx.pure (tS, tN)
  | it :: rest, tS, tN =>
      let row := resolveCustomItemV2 it
      Tx.bind (qwrite (fun db =>
        { db with custom_estimate_items := db.custom_estimate_items ++ [(estId, row)] }))
        (fun _ =>
          if row.taxable
          then insEstCustomItemsV2 estId rest (JNum.jadd tS (customRowAmount row)) tN
          else insEstCustomItemsV2 estId rest tS (JNum.jadd tN (customRowAmount row)))

/-- Transaction body of the second `POST /api/estimates` variant
(lines 642-733). -/
def createEstimateV2Tx (uid : ℕ) (req : EstimateReq) (cleanNotes : String) :
    Tx (Except String ℕ) :=
  Tx.bind (query (fun db =>
    (db.nextEstimateId,
      { db with
          estimates := db.estimates ++ [(db.nextEstimateId,
            { user_id := uid
              customer_id := req.customer_id.nullish .nullv
              customer_info := req.customer_info.jsOr (.objv "")
              notes := cleanNotes
              total := .fin 0 })]
          nextEstimateId := db.nextEstimateId + 1 }))) (fun estimateId =>
  Tx.bind (insEstVarItemsV2 estimateId req.variationItems (.fin 0) (.fin 0))
    (fun sub1 =>
  Tx.bind (insEstCustomItemsV2 estimateId req.customItems sub1.1 sub1.2)
    (fun sub2 =>
  Tx.bind (readTaxRate uid) (fun taxRate =>
  Tx.bind (qwrite (fun db =>
    let t := noDiscountTotal taxRate sub2.1 sub2.2
    { db with estimates := updateEstimateTotal db.estimates estimateId uid t }))
    (fun _ => Tx.pure (.ok estimateId))))))

/-- `POST /api/estimates` (second variant, lines 627-742). -/
def createEstimateV2 (s : Store) (fuel : ℕ) (uid : ℕ) (req : EstimateReq) :
    Store × Except String ℕ :=
  let cleanNotes := (toStringJs req.notes).trim
  if 150 < cleanNotes.length
  then (s, .error "Notes must be 150 characters or fewer.")
  else runTxRoute s fuel "Failed to save estimate" (createEstimateV2Tx uid req cleanNotes)

/-! ## Routes: invoices, first variant (lines 26-170) -/

/-- The route's `toObject` helper (lines 40-46): falsy values and
non-objects become `{}`.  Parsing a JSON string is not modelled (such
inputs land on the `{}` branch). -/
def toObject (v : JsVal) : JsVal :=
  if v.truthy = false then .objv ""
  else
    match v with
    | .objv s => .objv s
    | _ => .objv ""

/-- `if (customer_id != null && safe.id == null) safe.id = customer_id`
writes one field inside the opaque customer-info blob; no modelled
observation distinguishes the field, so the blob is carried unchanged. -/
def withCustomerId (ci _cid : JsVal) : JsVal := ci

/-- Body of the invoices `variationItems` loop (lines 77-92): no skip
test, price taken from the request (`Number(item.price || 0)`). -/
def resolveInvVarItemV1 (item : VarItemReq) : InvItemRow :=
  { product_variation_id := item.variation_id.toNum
    quantity := (item.quantity.jsOr (.jnum (.fin 1))).toNum
    price := some ((item.price.jsOr (.jnum (.fin 0))).toNum)
    taxable := some (boolish item.taxable true)
    display_name := some (toStringJs (item.display_name.jsOr item.product_name)) }

/-- A stored invoice variation line's contribution. -/
def invRowAmount (r : InvItemRow) : JNum :=
  JNum.jmul (r.price.getD (.fin 0)) r.quantity

/-- The invoices `variationItems` loop, accumulating `(total,
taxableTotal)` as the source does. -/
def insInvVarItemsV1 (invId : ℕ) : List VarItemReq → JNum → JNum → Tx (JNum × JNum)
  | [], total, taxableTotal => Tx.pure (total, taxableTotal)
  | item :: rest, total, taxableTotal =>
      let row := resolveInvVarItemV1 item
      let line := invRowAmount row
      Tx.bind (qwrite (fun db =>
        { db with invoice_items := db.invoice_items ++ [(invId, row)] }))
        (fun _ =>
          if row.taxable.getD true
          then insInvVarItemsV1 invId rest (JNum.jadd total line) (JNum.jadd taxableTotal line)
          else insInvVarItemsV1 invId rest (JNum.jadd total line) taxableTotal)

/-- The invoices `customItems` loop (lines 95-118); the per-line
coercions coincide with the first estimates variant's custom loop. -/
def insInvCustomItemsV1 (invId : ℕ) : List CustomItemReq → JNum → JNum → Tx (JNum × JNum)
  | [], total, taxableTotal => Tx.pure (total, taxableTotal)
  | item :: rest, total, taxableTotal =>
      let row := resolveCustomItemV1 item
      let line := customRowAmount row
      Tx.bind (qwrite (fun db =>
        { db with custom_invoice_items := db.custom_invoice_items ++ [(invId, row)] }))
        (fun _ =>
          if row.taxable
          then insInvCustomItemsV1 invId rest (JNum.jadd total line) (JNum.jadd taxableTotal line)
          else insInvCustomItemsV1 invId rest (JNum.jadd total line) taxableTotal)

/-- The source-estimate cleanup block (lines 150-160): when
`source_estimate_id` is finite and owned, delete the estimate and its
lines inside the same transaction. -/
def srcEstBlock (uid : ℕ) (srcEstId : JNum) : Tx Unit :=
  match srcEstId with
  | .fin v =>
      Tx.bind (qread (fun db =>
        (db.estimates.filter
          (fun p => decide ((p.1 : ℚ) = v ∧ p.2.user_id = uid))).length))
        (fun own =>
          if 0 < own then
            Tx.bind (qwrite (fun db =>
              { db with estimate_items :=
                  db.estimate_items.filter (fun p => ! decide ((p.1 : ℚ) = v)) }))
              (fun _ =>
            Tx.bind (qwrite (fun db =>
              { db with custom_estimate_items :=
                  db.custom_estimate_items.filter (fun p => ! decide ((p.1 : ℚ) = v)) }))
              (fun _ =>
            qwrite (fun db =>
              let keep := fun (p : ℕ × EstimateRow) =>
                ! decide ((p.1 : ℚ) = v ∧ p.2.user_id = uid)
              { db with estimates := db.estimates.filter keep })))
          else Tx.pure ())
  | _ => Tx.pure ()

/-- Transaction body of `POST /api/invoices` (first variant, lines
56-163). -/
def createInvoiceV1Tx (uid : ℕ) (req : InvoiceReq) (discType : DiscType)
    (discVal : JNum) (cleanNotes : String) (srcEstId : JNum) :
    Tx (Except String ℕ) :=
  Tx.bind (query (fun db =>
    (db.nextInvoiceId,
      { db with
          invoices := db.invoices ++ [(db.nextInvoiceId,
            { user_id := uid
              customer_info := withCustomerId (toObject req.customer_info) req.customer_id
              total := .fin 0
              discount_type := discType
              discount_value := discVal
              notes := cleanNotes })]
          nextInvoiceId := db.nextInvoiceId + 1 }))) (fun invoiceId =>
  Tx.bind (insInvVarItemsV1 invoiceId req.variationItems (.fin 0) (.fin 0))
    (fun acc1 =>
  Tx.bind (insInvCustomItemsV1 invoiceId req.customItems acc1.1 acc1.2)
    (fun acc2 =>
  Tx.bind (readTaxRate uid) (fun taxRate =>
  Tx.bind (qwrite (fun db =>
    let nonTaxableTotal := JNum.jsub acc2.1 acc2.2
    let t := invoiceFinalTotal discType discVal taxRate acc2.2 nonTaxableTotal
    { db with invoices := updateInvoiceTotal db.invoices invoiceId uid t }))
    (fun _ =>
  Tx.bind (srcEstBlock uid srcEstId) (fun _ => Tx.pure (.ok invoiceId)))))))

/-- `POST /api/invoices` (first variant, lines 26-170): notes are
silently sliced to 2000 characters — no length rejection exists on
this route. -/
def createInvoiceV1 (s : Store) (fuel : ℕ) (uid : ℕ) (req : InvoiceReq) :
    Store × Except String ℕ :=
  let discType := parseDiscTypeInv req.discount_type
  let discVal := parseDiscVal discType req.discount_value
  let cleanNotes := jsSlice (toStringJs req.notes) 2000
  let srcEstId := req.source_estimate_id.toNum
  runTxRoute s fuel "Invoices POST failed"
    (createInvoiceV1Tx uid req discType discVal cleanNotes srcEstId)

/-! ## Conversion (estimates route, first variant, lines 429-569) -/

/-- One row of the conversion's estimate-line SELECT (lines 475-487):
`COALESCE(ei.unit_price, pv.price)`, `COALESCE(ei.display_name,
p.name)`, `COALESCE(ei.taxable, TRUE)` over an inner join with the
catalog. -/
structure ResolvedEstLine where
  variation_id : JNum
  price : ℚ
  product_name : String
  taxable : Bool
  quantity : JNum
deriving DecidableEq, Repr

/-- Resolve one stored estimate line against the catalog; inner join:
an unresolvable variation reference yields no row. -/
def resolveEstItemRow (cat : Catalog) (r : EstItemRow) : Option ResolvedEstLine :=
  (catalogFindJ cat r.product_variation_id).map (fun e =>
    { variation_id := r.product_variation_id
      price := r.unit_price.getD e.price
      product_name := r.display_name.getD e.product_name
      taxable := r.taxable.getD true
      quantity := r.quantity })

/-- All resolved lines of an estimate, in row order. -/
def resolvedEstLines (cat : Catalog) (rows : List EstItemRow) : List ResolvedEstLine :=
  rows.filterMap (resolveEstItemRow cat)

/-- The invoice line the conversion inserts for one resolved estimate
line (lines 489-501): quantity `Number(q || 1)`, price
`Number(p || 0)`, taxable and label carried over. -/
def convInvRowOf (L : ResolvedEstLine) : InvItemRow :=
  { product_variation_id := L.variation_id
    quantity := JNum.or1 L.quantity
    price := some (JNum.or0 (.fin L.price))
    taxable := some L.taxable
    display_name := some L.product_name }

/-- The custom invoice line the conversion inserts for one stored
custom estimate line (lines 512-524). -/
def convCustomRowOf (r : CustomItemRow) : CustomItemRow :=
  { r with quantity := JNum.or1 r.quantity, price := JNum.or0 r.price }

/-- Conversion loop over resolved variation lines, accumulating
`(total, taxableSubtotal)`. -/
def convInsVarLines (invId : ℕ) : List ResolvedEstLine → JNum → JNum → Tx (JNum × JNum)
  | [], total, taxableSubtotal => Tx.pure (total, taxableSubtotal)
  | line :: rest, total, taxableSubtotal =>
      let row := convInvRowOf line
      let amt := invRowAmount row
      Tx.bind (qwrite (fun db =>
        { db with invoice_items := db.invoice_items ++ [(invId, row)] }))
        (fun _ =>
          if line.taxable
          then convInsVarLines invId rest (JNum.jadd total amt) (JNum.jadd taxableSubtotal amt)
          else convInsVarLines invId rest (JNum.jadd total amt) taxableSubtotal)

/-- Conversion loop over stored custom lines. -/
def convInsCustomLines (invId : ℕ) : List CustomItemRow → JNum → JNum → Tx (JNum × JNum)
  | [], total, taxableSubtotal => Tx.pure (total, taxableSubtotal)
  | it :: rest, total, taxableSubtotal =>
      let row := convCustomRowOf it
      let amt := customRowAmount row
      Tx.bind (qwrite (fun db =>
        { db with custom_invoice_items := db.custom_invoice_items ++ [(invId, row)] }))
        (fun _ =>
          if it.taxable
          then convInsCustomLines invId rest (JNum.jadd total amt) (JNum.jadd taxableSubtotal amt)
          else convInsCustomLines invId rest (JNum.jadd total amt) taxableSubtotal)

/-- Discount type of a conversion request (lines 437-438). -/
def convDiscType (req : ConvertReq) : DiscType :=
  parseDiscTypeConv req.discount_type

/-- Discount value of a conversion request (lines 439-441):
`Number(req.body?.discount_value || 0)` then clamp to `[0,100]`
(percent) or `[0,1e12]` (amount). -/
def convDiscVal (req : ConvertReq) : JNum :=
  let discVal0 := JsVal.toNum (req.discount_value.jsOr (.jnum (.fin 0)))
  if convDiscType req = .percent then clamp (.jnum discVal0) (.fin 0) (.fin 100)
  else clamp (.jnum discVal0) (.fin 0) (.fin (10 ^ 12))

/-- `toString(estRows[0].notes || '')` (line 457). -/
def carriedNotesOf (estRow : EstimateRow) : String :=
  toStringJs ((JsVal.str estRow.notes).jsOr (.str ""))

/-- `toString(req.body?.notes ?? carriedNotes).slice(0, 2000)` (line
458): a caller-supplied notes override, else the estimate's notes,
silently sliced to 2000 characters. -/
def convInvNotes (req : ConvertReq) (estRow : EstimateRow) : String :=
  jsSlice (toStringJs (req.notes.nullish (.str (carriedNotesOf estRow)))) 2000

/-- Transaction body of `POST /api/estimates/:id/convert-to-invoice`
(lines 444-561): ownership check, invoice header insert (customer info
carried from the estimate, total 0), copy resolved variation lines and
custom lines, compute and persist the discounted total, then delete the
estimate's lines and header. -/
def convertToInvoiceV1Tx (uid estimateId : ℕ) (req : ConvertReq)
    (discType : DiscType) (discVal : JNum) : Tx (Except String ℕ) :=
  Tx.bind (qread (fun db => estimateOwned db estimateId uid)) (fun est =>
  match est with
  | none => Tx.pure (.error "Access denied")
  | some estRow =>
    let invNotes := convInvNotes req estRow
    Tx.bind (query (fun db =>
      (db.nextInvoiceId,
        { db with
            invoices := db.invoices ++ [(db.nextInvoiceId,
              { user_id := uid
                customer_info := estRow.customer_info
                total := .fin 0
                discount_type := discType
                discount_value := discVal
                notes := invNotes })]
            nextInvoiceId := db.nextInvoiceId + 1 }))) (fun invoiceId =>
    Tx.bind (qread (fun db =>
      resolvedEstLines db.catalog (rowsFor db.estimate_items estimateId)))
      (fun varLines =>
    Tx.bind (convInsVarLines invoiceId varLines (.fin 0) (.fin 0)) (fun acc1 =>
    Tx.bind (qread (fun db => rowsFor db.custom_estimate_items estimateId))
      (fun customLines =>
    Tx.bind (convInsCustomLines invoiceId customLines acc1.1 acc1.2) (fun acc2 =>
    Tx.bind (readTaxRate uid) (fun taxRate =>
    Tx.bind (qwrite (fun db =>
      let nonTaxableSubtotal := JNum.jsub acc2.1 acc2.2
      let t := invoiceFinalTotal discType discVal taxRate acc2.2 nonTaxableSubtotal
      { db with invoices := updateInvoiceTotal db.invoices invoiceId uid t }))
      (fun _ =>
    Tx.bind (qwrite (fun db =>
      { db with estimate_items := deleteFor db.estimate_items estimateId }))
      (fun _ =>
    Tx.bind (qwrite (fun db =>
      { db with custom_estimate_items := deleteFor db.custom_estimate_items estimateId }))
      (fun _ =>
    Tx.bind (qwrite (fun db =>
      { db with estimates := deleteEstimate db.estimates estimateId uid }))
      (fun _ => Tx.pure (.ok invoiceId))))))))))))

/-- `POST /api/estimates/:id/convert-to-invoice` (first variant, lines
429-569).  The `:id` parameter is modelled as the natural number
admitted by the route's digit-string check. -/
def convertToInvoiceV1 (s : Store) (fuel : ℕ) (uid estimateId : ℕ)
    (req : ConvertReq) : Store × Except String ℕ :=
  runTxRoute s fuel "convert-to-invoice failed"
    (convertToInvoiceV1Tx uid estimateId req (convDiscType req) (convDiscVal req))

/-- Display label of one invoice variation line in
`GET /api/invoices/:id/items` (second variant, lines 654-672):
`COALESCE(ii.display_name, p.name, 'Item')` over LEFT JOINs — the
generic placeholder appears only when both the stored label and the
catalog reference are missing. -/
def invoiceItemViewName (cat : Catalog) (r : InvItemRow) : String :=
  match r.display_name with
  | some n => n
  | none =>
      match catalogFindJ cat r.product_variation_id with
      | some e => e.product_name
      | none => "Item"

/-! ## Committed result states

Pure descriptions of the store a successful transaction commits; the
run-characterisation lemmas below prove each route's success outcome
equals these. -/

/-- The row the second estimates variant inserts for one non-skipped
`variationItems` entry (pure view of the loop body). -/
def resolveVarItemV2 (cat : Catalog) (it : VarItemReq) : EstItemRow :=
  let lineUnitPrice : ℚ :=
    match v2OverridePrice it with
    | .fin u => u
    | _ => ((catalogFindJ cat (v2VariationId it)).map CatalogEntry.price).getD 0
  { product_variation_id := v2VariationId it
    quantity := qtyV2 it.quantity
    unit_price := some lineUnitPrice
    taxable := some (toBool it.taxable true)
    display_name := v2DisplayName it }

/-- The variation rows the second variant inserts (non-finite coerced
ids are skipped). -/
def v2VarRows (cat : Catalog) (items : List VarItemReq) : List EstItemRow :=
  items.filterMap (fun it =>
    if (v2VariationId it).isFin = false then none
    else some (resolveVarItemV2 cat it))

/-- The estimates header row a create inserts. -/
def estimateHeaderOf (uid : ℕ) (req : EstimateReq) (cleanNotes : String) :
    EstimateRow :=
  { user_id := uid
    customer_id := req.customer_id.nullish .nullv
    customer_info := req.customer_info.jsOr (.objv "")
    notes := cleanNotes
    total := .fin 0 }

/-- Subtotals of a full line set: variation rows first, then custom
rows, exactly in the routes' accumulation order. -/
def estSubtotalsOf (varRows : List EstItemRow) (customRows : List CustomItemRow) :
    JNum × JNum :=
  let sub1 := accumEstRows varRows (.fin 0) (.fin 0)
  accumCustomRows customRows sub1.1 sub1.2

/-- Store committed by a successful first-variant estimate create. -/
def createEstimateV1Result (s : Store) (uid : ℕ) (req : EstimateReq)
    (cleanNotes : String) : Store :=
  let nid := s.nextEstimateId
  let varRows := v1VarRows s.catalog req.variationItems
  let customRows := req.customItems.map resolveCustomItemV1
  let sub := estSubtotalsOf varRows customRows
  let r := effTaxRateRow (lookupRow s.store_info uid)
  { s with
      estimates := updateEstimateTotal
        (s.estimates ++ [(nid, estimateHeaderOf uid req cleanNotes)]) nid uid
        (noDiscountTotal r sub.1 sub.2)
      estimate_items := s.estimate_items ++ varRows.map (fun r2 => (nid, r2))
      custom_estimate_items :=
        s.custom_estimate_items ++ customRows.map (fun r2 => (nid, r2))
      nextEstimateId := nid + 1 }

/-- Store committed by a successful first-variant estimate update. -/
def updateEstimateV1Result (s : Store) (uid estimateId : ℕ) (req : EstimateReq)
    (cleanNotes : String) : Store :=
  let varRows := v1VarRows s.catalog req.variationItems
  let customRows := req.customItems.map resolveCustomItemV1
  let sub := estSubtotalsOf varRows customRows
  let r := effTaxRateRow (lookupRow s.store_info uid)
  let est1 := updateEstimateHeader s.estimates estimateId uid
    (req.customer_info.jsOr (.objv "")) cleanNotes
  { s with
      estimates := updateEstimateTotal est1 estimateId uid
        (noDiscountTotal r sub.1 sub.2)
      estimate_items :=
        deleteFor s.estimate_items estimateId
          ++ varRows.map (fun r2 => (estimateId, r2))
      custom_estimate_items :=
        deleteFor s.custom_estimate_items estimateId
          ++ customRows.map (fun r2 => (estimateId, r2)) }

/-- Conversion accumulation over resolved variation lines:
`(total, taxableSubtotal)`. -/
def accumConvVar : List ResolvedEstLine → JNum → JNum → JNum × JNum
  | [], total, tax => (total, tax)
  | L :: rest, total, tax =>
      let amt := invRowAmount (convInvRowOf L)
      if L.taxable then accumConvVar rest (JNum.jadd total amt) (JNum.jadd tax amt)
      else accumConvVar rest (JNum.jadd total amt) tax

/-- Conversion accumulation over stored custom lines. -/
def accumConvCustom : List CustomItemRow → JNum → JNum → JNum × JNum
  | [], total, tax => (total, tax)
  | c :: rest, total, tax =>
      let amt := customRowAmount (convCustomRowOf c)
      if c.taxable then accumConvCustom rest (JNum.jadd total amt) (JNum.jadd tax amt)
      else accumConvCustom rest (JNum.jadd total amt) tax

/-- The invoice total the conversion computes and persists. -/
def convertFinalTotal (s : Store) (uid estimateId : ℕ) (discType : DiscType)
    (discVal : JNum) : JNum :=
  let varLines := resolvedEstLines s.catalog (rowsFor s.estimate_items estimateId)
  let customLines := rowsFor s.custom_estimate_items estimateId
  let acc1 := accumConvVar varLines (.fin 0) (.fin 0)
  let acc2 := accumConvCustom customLines acc1.1 acc1.2
  let r := effTaxRateRow (lookupRow s.store_info uid)
  invoiceFinalTotal discType discVal r acc2.2 (JNum.jsub acc2.1 acc2.2)

/-- Store committed by a successful conversion. -/
def convertResult (s : Store) (uid estimateId : ℕ) (estRow : EstimateRow)
    (discType : DiscType) (discVal : JNum) (invNotes : String) : Store :=
  let nid := s.nextInvoiceId
  let varLines := resolvedEstLines s.catalog (rowsFor s.estimate_items estimateId)
  let customLines := rowsFor s.custom_estimate_items estimateId
  let hdr : InvoiceRow :=
    { user_id := uid
      customer_info := estRow.customer_info
      total := .fin 0
      discount_type := discType
      discount_value := discVal
      notes := invNotes }
  let t := convertFinalTotal s uid estimateId discType discVal
  { s with
      invoices := updateInvoiceTotal (s.invoices ++ [(nid, hdr)]) nid uid t
      invoice_items :=
        s.invoice_items ++ varLines.map (fun L => (nid, convInvRowOf L))
      custom_invoice_items :=
        s.custom_invoice_items ++ customLines.map (fun c => (nid, convCustomRowOf c))
      estimate_items := deleteFor s.estimate_items estimateId
      custom_estimate_items := deleteFor s.custom_estimate_items estimateId
      estimates := deleteEstimate s.estimates estimateId uid
      nextInvoiceId := nid + 1 }

/-- Invoice-create accumulation over `variationItems`:
`(total, taxableTotal)`. -/
def accumInvVar : List VarItemReq → JNum → JNum → JNum × JNum
  | [], total, tax => (total, tax)
  | item :: rest, total, tax =>
      let row := resolveInvVarItemV1 item
      let line := invRowAmount row
      if row.taxable.getD true then accumInvVar rest (JNum.jadd total line) (JNum.jadd tax line)
      else accumInvVar rest (JNum.jadd total line) tax

/-- Invoice-create accumulation over `customItems`. -/
def accumInvCustom : List CustomItemReq → JNum → JNum → JNum × JNum
  | [], total, tax => (total, tax)
  | item :: rest, total, tax =>
      let row := resolveCustomItemV1 item
      let line := customRowAmount row
      if row.taxable then accumInvCustom rest (JNum.jadd total line) (JNum.jadd tax line)
      else accumInvCustom rest (JNum.jadd total line) tax

/-- The source-estimate cleanup as a pure store transform. -/
def srcEstCleanup (s : Store) (uid : ℕ) (srcEstId : JNum) : Store :=
  match srcEstId with
  | .fin v =>
      if 0 < (s.estimates.filter
          (fun p => decide ((p.1 : ℚ) = v ∧ p.2.user_id = uid))).length
      then
        let keep := fun (p : ℕ × EstimateRow) =>
          ! decide ((p.1 : ℚ) = v ∧ p.2.user_id = uid)
        { s with
            estimate_items :=
              s.estimate_items.filter (fun p => ! decide ((p.1 : ℚ) = v))
            custom_estimate_items :=
              s.custom_estimate_items.filter (fun p => ! decide ((p.1 : ℚ) = v))
            estimates := s.estimates.filter keep }
      else s
  | _ => s

/-- Store committed by a successful first-variant invoice create. -/
def createInvoiceV1Result (s : Store) (uid : ℕ) (req : InvoiceReq)
    (discType : DiscType) (discVal : JNum) (cleanNotes : String)
    (srcEstId : JNum) : Store :=
  let nid := s.nextInvoiceId
  let hdr : InvoiceRow :=
    { user_id := uid
      customer_info := withCustomerId (toObject req.customer_info) req.customer_id
      total := .fin 0
      discount_type := discType
      discount_value := discVal
      notes := cleanNotes }
  let acc1 := accumInvVar req.variationItems (.fin 0) (.fin 0)
  let acc2 := accumInvCustom req.customItems acc1.1 acc1.2
  let r := effTaxRateRow (lookupRow s.store_info uid)
  let t := invoiceFinalTotal discType discVal r acc2.2 (JNum.jsub acc2.1 acc2.2)
  let main :=
    { s with
        invoices := updateInvoiceTotal (s.invoices ++ [(nid, hdr)]) nid uid t
        invoice_items :=
          s.invoice_items
            ++ req.variationItems.map (fun it => (nid, resolveInvVarItemV1 it))
        custom_invoice_items :=
          s.custom_invoice_items
            ++ req.customItems.map (fun it => (nid, resolveCustomItemV1 it))
        nextInvoiceId := nid + 1 }
  srcEstCleanup main uid srcEstId

/-! ## Concrete database and request fixtures

Small closed instances used to evaluate the routes on specific inputs. -/

/-- A store with every table empty and both id sequences at 1. -/
def emptyStore : Store :=
  { estimates := [], estimate_items := [], custom_estimate_items := [],
    invoices := [], invoice_items := [], custom_invoice_items := [],
    catalog := [], store_info := [], nextEstimateId := 1, nextInvoiceId := 1 }

/-- An estimate-request body with no lines and every field absent. -/
def emptyEstReq : EstimateReq :=
  { customer_id := .undef, customer_info := .undef, variationItems := [],
    customItems := [], notes := .undef, total := .undef }

/-- An estimate header owned by user 7. -/
def eFix : EstimateRow :=
  { user_id := 7, customer_id := .nullv, customer_info := .objv "",
    notes := "keep", total := .fin 0 }

/-- A stored variation line of estimate 1: no overrides, so the
conversion must resolve its price and label from the catalog. -/
def itemFix : EstItemRow :=
  { product_variation_id := .fin 4, quantity := .fin 2,
    unit_price := none, taxable := some true, display_name := none }

/-- A stored custom line of estimate 1. -/
def customFix : CustomItemRow :=
  { product_name := "banner", size := "A1", price := .fin 3,
    quantity := .fin 1, accessory := "", taxable := false }

/-- A one-product catalog resolving variation id 4. -/
def catFix : Catalog :=
  [(4, { price := 5, product_name := "Widget", size := none, accessory := none })]

/-- A store holding estimate 1 (owned by user 7) with one variation
line and one custom line. -/
def sOwned : Store :=
  { estimates := [(1, eFix)], estimate_items := [(1, itemFix)],
    custom_estimate_items := [(1, customFix)], invoices := [],
    invoice_items := [], custom_invoice_items := [], catalog := catFix,
    store_info := [], nextEstimateId := 2, nextInvoiceId := 1 }

/-- A conversion request with an empty body. -/
def convReqFix : ConvertReq :=
  { discount_type := .undef, discount_value := .undef, notes := .undef }

/-- A variation-line request with a negative quantity and a negative
finite unit-price override. -/
def rawC5 : VarItemReq :=
  { variation_id := .jnum (.fin 4), variationId := .undef,
    quantity := .jnum (.fin (-2)), unit_price := .jnum (.fin (-5)),
    price := .undef, taxable := .undef, display_name := .undef,
    product_name := .undef }

/-- A 2001-character notes string. -/
def notesC7 : String := ⟨List.replicate 2001 'a'⟩

/-- An invoice-request body whose notes exceed the 2000-character cap. -/
def reqC7 : InvoiceReq :=
  { customer_id := .undef, customer_info := .undef, variationItems := [],
    customItems := [], discount_type := .undef, discount_value := .undef,
    notes := .str notesC7, source_estimate_id := .undef, total := .undef }

/-- A variation-line request whose catalog reference (id 7) resolves
nowhere, with no overrides. -/
def rawC9 : VarItemReq :=
  { variation_id := .jnum (.fin 7), variationId := .undef,
    quantity := .undef, unit_price := .undef, price := .undef,
    taxable := .undef, display_name := .undef, product_name := .undef }

/-- A variation-line request whose `variation_id` is the falsy but
finite number 0, with a finite price override. -/
def itC10 : VarItemReq :=
  { variation_id := .jnum (.fin 0), variationId := .undef,
    quantity := .jnum (.fin 2), unit_price := .jnum (.fin 3),
    price := .undef, taxable := .undef, display_name := .undef,
    product_name := .undef }

/-- An estimate-request body holding only the falsy-id line. -/
def reqC10 : EstimateReq :=
  { customer_id := .undef, customer_info := .undef,
    variationItems := [itC10], customItems := [], notes := .undef,
    total := .undef }

theorem clamp_fin (v lo hi : ℚ) :
    clamp (.jnum (.fin v)) (.fin lo) (.fin hi) = .fin (clampQ v lo hi) := by
  by_cases h : v = 0 <;>
    simp [clamp, clampQ, JsVal.toNum, JNum.or0, JNum.truthyN, JNum.jmax, JNum.jmin, h]

theorem or0_fin (x : ℚ) : JNum.or0 (.fin x) = .fin x := by
  by_cases h : x = 0 <;> simp [JNum.or0, JNum.truthyN, h]

theorem or1_fin_ne (x : ℚ) (h : x ≠ 0) : JNum.or1 (.fin x) = .fin x := by
  simp [JNum.or1, JNum.truthyN, h]

theorem jadd_fin (a b : ℚ) : JNum.jadd (.fin a) (.fin b) = .fin (a + b) := rfl

theorem jmul_fin (a b : ℚ) : JNum.jmul (.fin a) (.fin b) = .fin (a * b) := rfl

theorem jsub_fin (a b : ℚ) : JNum.jsub (.fin a) (.fin b) = .fin (a - b) := by
  simp [JNum.jsub, JNum.jneg, JNum.jadd, sub_eq_add_neg]

theorem jmax_fin (a b : ℚ) : JNum.jmax (.fin a) (.fin b) = .fin (max a b) := rfl

theorem div100_fin (a : ℚ) : JNum.div100 (.fin a) = .fin (a / 100) := rfl

theorem clampQ_ge (v lo hi : ℚ) (h : lo ≤ hi) : lo ≤ clampQ v lo hi :=
  le_min (le_max_right v lo) h

theorem clampQ_le (v lo hi : ℚ) : clampQ v lo hi ≤ hi := min_le_right _ _

theorem clampQ_of_mem {v lo hi : ℚ} (h1 : lo ≤ v) (h2 : v ≤ hi) :
    clampQ v lo hi = v := by
  unfold clampQ
  rw [max_eq_left h1, min_eq_left h2]

theorem clampQ_clampQ (v lo hi : ℚ) (h : lo ≤ hi) :
    clampQ (clampQ v lo hi) lo hi = clampQ v lo hi :=
  clampQ_of_mem (clampQ_ge v lo hi h) (clampQ_le v lo hi)

/-- Claim C2: for all subtotals T (taxable) and N (non-taxable), tax
rate r and requested percent-discount value d, the computed final total
is `T*(1-p)*(1+r) + N*(1-p)` with `p = clamp(d,0,100)/100`: the
percentage is applied to each subtotal independently before tax. -/
theorem c2_percent_discount_total (T N r d : ℚ) :
    invoiceFinalTotal .percent (parseDiscVal .percent (.jnum (.fin d))) r
        (.fin T) (.fin N)
      = .fin (T * (1 - clampQ d 0 100 / 100) * (1 + r)
              + N * (1 - clampQ d 0 100 / 100)) := by
  have h100 : (0 : ℚ) ≤ 100 := by norm_num
  simp only [parseDiscVal, JsVal.toNum, or0_fin, clamp_fin, invoiceFinalTotal,
    clampQ_clampQ d 0 100 h100, div100_fin, jsub_fin, jmul_fin, jadd_fin]
  congr 1
  ring

/-- Claim C3 counterexample: with one taxable line of amount 2·10¹²,
tax rate 0 and amount-discount value 2·10¹², the code's final total is
10¹² (the discount is first clamped to 10¹²), not the claimed
`max(0, G - clamp(d, 0, G)) = 0`. -/
theorem c3_counterexample :
    invoiceFinalTotal .amount
        (parseDiscVal .amount (.jnum (.fin (2 * 10 ^ 12)))) 0
        (.fin (2 * 10 ^ 12)) (.fin 0)
      ≠ .fin (max 0 ((2 * 10 ^ 12) * (1 + 0) + 0
              - clampQ (2 * 10 ^ 12) 0 ((2 * 10 ^ 12) * (1 + 0) + 0))) := by
  simp only [parseDiscVal, JsVal.toNum, or0_fin, clamp_fin, invoiceFinalTotal,
    jmul_fin, jadd_fin, jsub_fin, jmax_fin, ne_eq, JNum.fin.injEq]
  norm_num [clampQ, min_def, max_def]

/-- Claim C3 (amended): the requested amount-discount value is first
clamped to `[0, 10¹²]`; with `d' = clamp(d,0,10¹²)` the computed final
total is `max(0, G - clamp(d',0,G))` where `G = T*(1+r) + N`, in both
variants of the amount branch. -/
theorem c3_amount_discount_total_amended (T N r d : ℚ) :
    invoiceFinalTotal .amount (parseDiscVal .amount (.jnum (.fin d))) r
        (.fin T) (.fin N)
      = .fin (max 0 (T * (1 + r) + N
              - clampQ (clampQ d 0 (10 ^ 12)) 0 (T * (1 + r) + N)))
    ∧ invoiceFinalTotalV2 .amount (parseDiscVal .amount (.jnum (.fin d))) r
        (.fin T) (.fin N)
      = .fin (max 0 (T * (1 + r) + N
              - clampQ (clampQ d 0 (10 ^ 12)) 0 (T * (1 + r) + N))) := by
  have hb : (0 : ℚ) ≤ 10 ^ 12 := by norm_num
  have hd0 : 0 ≤ clampQ d 0 (10 ^ 12) := clampQ_ge d 0 (10 ^ 12) hb
  have hdle : clampQ d 0 (10 ^ 12) ≤ 10 ^ 12 := clampQ_le d 0 (10 ^ 12)
  set d' := clampQ d 0 (10 ^ 12) with hd'
  constructor
  · simp only [parseDiscVal, JsVal.toNum, or0_fin, clamp_fin, invoiceFinalTotal,
      ← hd', jmul_fin, jadd_fin, jsub_fin, jmax_fin]
  · simp only [parseDiscVal, JsVal.toNum, or0_fin, clamp_fin,
      invoiceFinalTotalV2, ← hd', jmul_fin, jadd_fin, jsub_fin, jmax_fin]
    congr 1
    rw [clampQ_of_mem hd0 hdle]
    rcases le_total d' (T * (1 + r) + N) with h | h
    · rw [clampQ_of_mem hd0 h]
    · have h1 : clampQ d' 0 (T * (1 + r) + N) = T * (1 + r) + N := by
        unfold clampQ
        rw [max_eq_left hd0, min_eq_right h]
      rw [h1]
      have h2 : T * (1 + r) + N - d' ≤ 0 := by linarith
      rw [max_eq_left h2, sub_self, max_self]

/-- Claim C6 (amended): the rate every totals computation uses is
`COALESCE(stored, 0.06)` — 0.06 exactly when the settings row or its
tax_rate column is absent, and the stored value as-is otherwise, with
no range check; the `[0,1]` sanitisation (falling back to 0.06) is
performed by `sanitizeTaxRate` on the store-info read/write paths, so a
rate written through the store-info endpoint always lies in `[0,1]`. -/
theorem c6_tax_rate_amended :
    effTaxRateRow none = 6 / 100
    ∧ effTaxRateRow (some none) = 6 / 100
    ∧ (∀ r : ℚ, effTaxRateRow (some (some r)) = r)
    ∧ (∀ v : JsVal, 0 ≤ sanitizeTaxRate v ∧ sanitizeTaxRate v ≤ 1)
    ∧ (∀ r : ℚ, sanitizeTaxRate (.jnum (.fin r))
        = if r < 0 ∨ r > 1 then 6 / 100 else r) := by
  refine ⟨rfl, rfl, fun r => rfl, fun v => ?_, fun r => rfl⟩
  unfold sanitizeTaxRate
  cases h : v.toNum with
  | fin r =>
      by_cases hr : r < 0 ∨ r > 1
      · simp only [if_pos hr]
        norm_num
      · push_neg at hr
        have hn : ¬ (r < 0 ∨ r > 1) := by
          push_neg
          exact ⟨hr.1, hr.2⟩
        simp only [if_neg hn]
        exact ⟨hr.1, hr.2⟩
  | nan => norm_num
  | inf => norm_num
  | ninf => norm_num

/-! ## Transaction-chain inversion lemmas -/

theorem txBind_eq_some {α β : Type} {x : Tx α} {f : α → Tx β} {st : TxSt}
    {b : β} {st2 : TxSt} :
    Tx.bind x f st = some (b, st2)
      ↔ ∃ a st1, x st = some (a, st1) ∧ f a st1 = some (b, st2) := by
  unfold Tx.bind
  cases hx : x st with
  | none => simp [hx]
  | some p =>
      cases p with
      | mk a st1 =>
          constructor
          · intro h
            exact ⟨a, st1, rfl, h⟩
          · rintro ⟨a1, st11, h1, h2⟩
            have h3 : some (a, st1) = some (a1, st11) := hx ▸ h1
            cases h3
            exact h2

theorem txPure_eq_some {α : Type} {a b : α} {st st' : TxSt} :
    Tx.pure a st = some (b, st') ↔ b = a ∧ st' = st := by
  unfold Tx.pure
  constructor
  · intro h
    cases h
    exact ⟨rfl, rfl⟩
  · rintro ⟨rfl, rfl⟩
    rfl

theorem query_eq_some {α : Type} {f : Store → α × Store} {st : TxSt} {a : α}
    {st' : TxSt} :
    query f st = some (a, st')
      ↔ ∃ n, st.fuel = n + 1 ∧ a = (f st.db).1 ∧ st' = ⟨(f st.db).2, n⟩ := by
  unfold query
  cases hf : st.fuel with
  | zero => simp
  | succ n =>
      constructor
      · intro h
        cases h
        exact ⟨n, rfl, rfl, rfl⟩
      · rintro ⟨m, hm, rfl, rfl⟩
        cases hm
        rfl

theorem qread_eq_some {α : Type} {f : Store → α} {st : TxSt} {a : α}
    {st' : TxSt} :
    qread f st = some (a, st')
      ↔ ∃ n, st.fuel = n + 1 ∧ a = f st.db ∧ st' = ⟨st.db, n⟩ := by
  unfold qread
  exact query_eq_some

theorem qwrite_eq_some {f : Store → Store} {st : TxSt} {u : Unit} {st' : TxSt} :
    qwrite f st = some (u, st')
      ↔ ∃ n, st.fuel = n + 1 ∧ st' = ⟨f st.db, n⟩ := by
  unfold qwrite
  rw [query_eq_some]
  constructor
  · rintro ⟨n, h1, _, h3⟩
    exact ⟨n, h1, h3⟩
  · rintro ⟨n, h1, h3⟩
    exact ⟨n, h1, rfl, h3⟩

/-! ## Loop characterisations (success runs) -/

theorem insEstVarItemsV1_ok {estId : ℕ} :
    ∀ (items : List VarItemReq) (tS tN : JNum) (st : TxSt)
      (res : JNum × JNum) (st' : TxSt),
      insEstVarItemsV1 estId items tS tN st = some (res, st') →
      st'.db = { st.db with estimate_items :=
          st.db.estimate_items
            ++ (v1VarRows st.db.catalog items).map (fun r => (estId, r)) }
      ∧ res = accumEstRows (v1VarRows st.db.catalog items) tS tN := by
  intro items
  induction items with
  | nil =>
      intro tS tN st res st' h
      rw [insEstVarItemsV1, txPure_eq_some] at h
      obtain ⟨rfl, rfl⟩ := h
      simp [v1VarRows, accumEstRows]
  | cons raw rest ih =>
      intro tS tN st res st' h
      rw [insEstVarItemsV1] at h
      by_cases hskip : raw.variation_id.truthy = false
      · rw [if_pos hskip] at h
        have := ih tS tN st res st' h
        simpa [v1VarRows, hskip] using this
      · rw [if_neg hskip] at h
        rw [txBind_eq_some] at h
        obtain ⟨row, st1, h1, h⟩ := h
        rw [qread_eq_some] at h1
        obtain ⟨n1, hf1, hrow, hst1⟩ := h1
        rw [txBind_eq_some] at h
        obtain ⟨u, st2, h2, h⟩ := h
        rw [qwrite_eq_some] at h2
        obtain ⟨n2, hf2, hst2⟩ := h2
        subst hst1
        subst hst2
        subst hrow
        have hrows : v1VarRows st.db.catalog (raw :: rest)
            = resolveVarItemV1 st.db.catalog raw :: v1VarRows st.db.catalog rest := by
          simp [v1VarRows, hskip]
        by_cases htax : estRowTaxable (resolveVarItemV1 st.db.catalog raw)
        · rw [if_pos htax] at h
          have := ih _ _ _ _ _ h
          obtain ⟨hdb, hres⟩ := this
          constructor
          · rw [hdb]
            simp [hrows]
          · rw [hres, hrows]
            simp [accumEstRows, htax]
        · rw [if_neg htax] at h
          have := ih _ _ _ _ _ h
          obtain ⟨hdb, hres⟩ := this
          constructor
          · rw [hdb]
            simp [hrows]
          · rw [hres, hrows]
            simp [accumEstRows, htax]

theorem insEstCustomItemsV1_ok {estId : ℕ} :
    ∀ (items : List CustomItemReq) (tS tN : JNum) (st : TxSt)
      (res : JNum × JNum) (st' : TxSt),
      insEstCustomItemsV1 estId items tS tN st = some (res, st') →
      st'.db = { st.db with custom_estimate_items :=
          st.db.custom_estimate_items
            ++ (items.map resolveCustomItemV1).map (fun r => (estId, r)) }
      ∧ res = accumCustomRows (items.map resolveCustomItemV1) tS tN := by
  intro items
  induction items with
  | nil =>
      intro tS tN st res st' h
      rw [insEstCustomItemsV1, txPure_eq_some] at h
      obtain ⟨rfl, rfl⟩ := h
      simp [accumCustomRows]
  | cons item rest ih =>
      intro tS tN st res st' h
      rw [insEstCustomItemsV1] at h
      rw [txBind_eq_some] at h
      obtain ⟨u, st2, h2, h⟩ := h
      rw [qwrite_eq_some] at h2
      obtain ⟨n2, hf2, hst2⟩ := h2
      subst hst2
      by_cases htax : (resolveCustomItemV1 item).taxable
      · rw [if_pos htax] at h
        obtain ⟨hdb, hres⟩ := ih _ _ _ _ _ h
        constructor
        · rw [hdb]
          simp
        · rw [hres]
          simp [accumCustomRows, htax]
      · rw [if_neg htax] at h
        obtain ⟨hdb, hres⟩ := ih _ _ _ _ _ h
        constructor
        · rw [hdb]
          simp
        · rw [hres]
          simp [accumCustomRows, htax]

theorem convInsVarLines_ok {invId : ℕ} :
    ∀ (lines : List ResolvedEstLine) (a b : JNum) (st : TxSt)
      (res : JNum × JNum) (st' : TxSt),
      convInsVarLines invId lines a b st = some (res, st') →
      st'.db = { st.db with invoice_items :=
          st.db.invoice_items ++ (lines.map (fun L => (invId, convInvRowOf L))) }
      ∧ res = accumConvVar lines a b := by
  intro lines
  induction lines with
  | nil =>
      intro a b st res st' h
      rw [convInsVarLines, txPure_eq_some] at h
      obtain ⟨rfl, rfl⟩ := h
      simp [accumConvVar]
  | cons L rest ih =>
      intro a b st res st' h
      rw [convInsVarLines] at h
      rw [txBind_eq_some] at h
      obtain ⟨u, st2, h2, h⟩ := h
      rw [qwrite_eq_some] at h2
      obtain ⟨n2, hf2, hst2⟩ := h2
      subst hst2
      by_cases htax : L.taxable
      · rw [if_pos htax] at h
        obtain ⟨hdb, hres⟩ := ih _ _ _ _ _ h
        constructor
        · rw [hdb]
          simp
        · rw [hres]
          simp [accumConvVar, htax]
      · rw [if_neg htax] at h
        obtain ⟨hdb, hres⟩ := ih _ _ _ _ _ h
        constructor
        · rw [hdb]
          simp
        · rw [hres]
          simp [accumConvVar, htax]

theorem convInsCustomLines_ok {invId : ℕ} :
    ∀ (lines : List CustomItemRow) (a b : JNum) (st : TxSt)
      (res : JNum × JNum) (st' : TxSt),
      convInsCustomLines invId lines a b st = some (res, st') →
      st'.db = { st.db with custom_invoice_items :=
          st.db.custom_invoice_items
            ++ (lines.map (fun c => (invId, convCustomRowOf c))) }
      ∧ res = accumConvCustom lines a b := by
  intro lines
  induction lines with
  | nil =>
      intro a b st res st' h
      rw [convInsCustomLines, txPure_eq_some] at h
      obtain ⟨rfl, rfl⟩ := h
      simp [accumConvCustom]
  | cons c rest ih =>
      intro a b st res st' h
      rw [convInsCustomLines] at h
      rw [txBind_eq_some] at h
      obtain ⟨u, st2, h2, h⟩ := h
      rw [qwrite_eq_some] at h2
      obtain ⟨n2, hf2, hst2⟩ := h2
      subst hst2
      by_cases htax : c.taxable
      · rw [if_pos htax] at h
        obtain ⟨hdb, hres⟩ := ih _ _ _ _ _ h
        constructor
        · rw [hdb]
          simp
        · rw [hres]
          simp [accumConvCustom, htax]
      · rw [if_neg htax] at h
        obtain ⟨hdb, hres⟩ := ih _ _ _ _ _ h
        constructor
        · rw [hdb]
          simp
        · rw [hres]
          simp [accumConvCustom, htax]

theorem insInvVarItemsV1_ok {invId : ℕ} :
    ∀ (items : List VarItemReq) (a b : JNum) (st : TxSt)
      (res : JNum × JNum) (st' : TxSt),
      insInvVarItemsV1 invId items a b st = some (res, st') →
      st'.db = { st.db with invoice_items :=
          st.db.invoice_items
            ++ (items.map (fun it => (invId, resolveInvVarItemV1 it))) }
      ∧ res = accumInvVar items a b := by
  intro items
  induction items with
  | nil =>
      intro a b st res st' h
      rw [insInvVarItemsV1, txPure_eq_some] at h
      obtain ⟨rfl, rfl⟩ := h
      simp [accumInvVar]
  | cons item rest ih =>
      intro a b st res st' h
      rw [insInvVarItemsV1] at h
      rw [txBind_eq_some] at h
      obtain ⟨u, st2, h2, h⟩ := h
      rw [qwrite_eq_some] at h2
      obtain ⟨n2, hf2, hst2⟩ := h2
      subst hst2
      by_cases htax : (resolveInvVarItemV1 item).taxable.getD true
      · rw [if_pos htax] at h
        obtain ⟨hdb, hres⟩ := ih _ _ _ _ _ h
        constructor
        · rw [hdb]
          simp
        · rw [hres]
          simp [accumInvVar, htax]
      · rw [if_neg htax] at h
        obtain ⟨hdb, hres⟩ := ih _ _ _ _ _ h
        constructor
        · rw [hdb]
          simp
        · rw [hres]
          simp [accumInvVar, htax]

theorem insInvCustomItemsV1_ok {invId : ℕ} :
    ∀ (items : List CustomItemReq) (a b : JNum) (st : TxSt)
      (res : JNum × JNum) (st' : TxSt),
      insInvCustomItemsV1 invId items a b st = some (res, st') →
      st'.db = { st.db with custom_invoice_items :=
          st.db.custom_invoice_items
            ++ (items.map (fun it => (invId, resolveCustomItemV1 it))) }
      ∧ res = accumInvCustom items a b := by
  intro items
  induction items with
  | nil =>
      intro a b st res st' h
      rw [insInvCustomItemsV1, txPure_eq_some] at h
      obtain ⟨rfl, rfl⟩ := h
      simp [accumInvCustom]
  | cons item rest ih =>
      intro a b st res st' h
      rw [insInvCustomItemsV1] at h
      rw [txBind_eq_some] at h
      obtain ⟨u, st2, h2, h⟩ := h
      rw [qwrite_eq_some] at h2
      obtain ⟨n2, hf2, hst2⟩ := h2
      subst hst2
      by_cases htax : (resolveCustomItemV1 item).taxable
      · rw [if_pos htax] at h
        obtain ⟨hdb, hres⟩ := ih _ _ _ _ _ h
        constructor
        · rw [hdb]
          simp
        · rw [hres]
          simp [accumInvCustom, htax]
      · rw [if_neg htax] at h
        obtain ⟨hdb, hres⟩ := ih _ _ _ _ _ h
        constructor
        · rw [hdb]
          simp
        · rw [hres]
          simp [accumInvCustom, htax]

/-! ## Route run characterisations -/

theorem createEstimateV1_ok {s : Store} {fuel uid : ℕ} {req : EstimateReq}
    {s' : Store} {estId : ℕ}
    (h : createEstimateV1 s fuel uid req = (s', .ok estId)) :
    estId = s.nextEstimateId
    ∧ s' = createEstimateV1Result s uid req ((toStringJs req.notes).trim) := by
  simp only [createEstimateV1] at h
  by_cases hn : 150 < ((toStringJs req.notes).trim).length
  · rw [if_pos hn] at h
    simp at h
  · rw [if_neg hn] at h
    unfold runTxRoute at h
    cases hb : createEstimateV1Tx uid req ((toStringJs req.notes).trim) ⟨s, fuel⟩ with
    | none =>
        rw [hb] at h
        simp at h
    | some p =>
        obtain ⟨r0, st0⟩ := p
        rw [hb] at h
        cases r0 with
        | error e => simp at h
        | ok a =>
            simp only [Prod.mk.injEq, Except.ok.injEq] at h
            obtain ⟨hs', ha⟩ := h
            rw [createEstimateV1Tx, txBind_eq_some] at hb
            obtain ⟨estId0, st1, h1, hb⟩ := hb
            rw [query_eq_some] at h1
            obtain ⟨n1, hf1, ha1, hst1⟩ := h1
            rw [txBind_eq_some] at hb
            obtain ⟨sub1, st2, h2, hb⟩ := hb
            obtain ⟨hdb2, hsub1⟩ := insEstVarItemsV1_ok _ _ _ _ _ _ h2
            rw [txBind_eq_some] at hb
            obtain ⟨sub2, st3, h3, hb⟩ := hb
            obtain ⟨hdb3, hsub2⟩ := insEstCustomItemsV1_ok _ _ _ _ _ _ h3
            rw [txBind_eq_some] at hb
            obtain ⟨taxRate, st4, h4, hb⟩ := hb
            rw [readTaxRate, qread_eq_some] at h4
            obtain ⟨n4, hf4, hrate, hst4⟩ := h4
            rw [txBind_eq_some] at hb
            obtain ⟨u5, st5, h5, hb⟩ := hb
            rw [qwrite_eq_some] at h5
            obtain ⟨n5, hf5, hst5⟩ := h5
            rw [txPure_eq_some] at hb
            obtain ⟨hres, hst⟩ := hb
            cases hres
            subst hst5
            subst hst4
            subst hst1
            subst hst
            subst ha
            subst hs'
            simp only at ha1 hdb2 hsub1 hdb3 hsub2 hrate
            subst ha1
            subst hsub1
            subst hsub2
            subst hrate
            rw [hdb3, hdb2]
            simp only [createEstimateV1Result, estSubtotalsOf, estimateHeaderOf]
            exact ⟨trivial, by simp⟩

theorem updateEstimateV1_ok {s : Store} {fuel uid estimateId : ℕ}
    {req : EstimateReq} {s' : Store} {outId : ℕ}
    (h : updateEstimateV1 s fuel uid estimateId req = (s', .ok outId)) :
    outId = estimateId
    ∧ estimateOwned s estimateId uid ≠ none
    ∧ s' = updateEstimateV1Result s uid estimateId req
        ((toStringJs req.notes).trim) := by
  simp only [updateEstimateV1] at h
  by_cases hn : 150 < ((toStringJs req.notes).trim).length
  · rw [if_pos hn] at h
    simp at h
  · rw [if_neg hn] at h
    unfold runTxRoute at h
    cases hb : updateEstimateV1Tx uid estimateId req
        ((toStringJs req.notes).trim) ⟨s, fuel⟩ with
    | none =>
        rw [hb] at h
        simp at h
    | some p =>
        obtain ⟨r0, st0⟩ := p
        rw [hb] at h
        cases r0 with
        | error e => simp at h
        | ok a =>
            simp only [Prod.mk.injEq, Except.ok.injEq] at h
            obtain ⟨hs', ha⟩ := h
            rw [updateEstimateV1Tx, txBind_eq_some] at hb
            obtain ⟨owned, st1, h1, hb⟩ := hb
            rw [qread_eq_some] at h1
            obtain ⟨n1, hf1, ha1, hst1⟩ := h1
            simp only at ha1
            subst ha1
            subst hst1
            cases howned : estimateOwned s estimateId uid with
            | none =>
                rw [howned] at hb
                rw [txPure_eq_some] at hb
                obtain ⟨hres, _⟩ := hb
                cases hres
            | some e0 =>
                rw [howned] at hb
                rw [txBind_eq_some] at hb
                obtain ⟨u1, stH, hH, hb⟩ := hb
                rw [qwrite_eq_some] at hH
                obtain ⟨nH, hfH, hstH⟩ := hH
                rw [txBind_eq_some] at hb
                obtain ⟨u2, stD1, hD1, hb⟩ := hb
                rw [qwrite_eq_some] at hD1
                obtain ⟨nD1, hfD1, hstD1⟩ := hD1
                rw [txBind_eq_some] at hb
                obtain ⟨u3, stD2, hD2, hb⟩ := hb
                rw [qwrite_eq_some] at hD2
                obtain ⟨nD2, hfD2, hstD2⟩ := hD2
                rw [txBind_eq_some] at hb
                obtain ⟨sub1, st2, h2, hb⟩ := hb
                obtain ⟨hdb2, hsub1⟩ := insEstVarItemsV1_ok _ _ _ _ _ _ h2
                rw [txBind_eq_some] at hb
                obtain ⟨sub2, st3, h3, hb⟩ := hb
                obtain ⟨hdb3, hsub2⟩ := insEstCustomItemsV1_ok _ _ _ _ _ _ h3
                rw [txBind_eq_some] at hb
                obtain ⟨taxRate, st4, h4, hb⟩ := hb
                rw [readTaxRate, qread_eq_some] at h4
                obtain ⟨n4, hf4, hrate, hst4⟩ := h4
                rw [txBind_eq_some] at hb
                obtain ⟨u5, st5, h5, hb⟩ := hb
                rw [qwrite_eq_some] at h5
                obtain ⟨n5, hf5, hst5⟩ := h5
                rw [txPure_eq_some] at hb
                obtain ⟨hres, hst⟩ := hb
                cases hres
                subst hst5
                subst hst4
                subst hstH
                subst hstD1
                subst hstD2
                subst hst
                subst ha
                subst hs'
                simp only at hdb2 hsub1 hdb3 hsub2 hrate
                subst hsub1
                subst hsub2
                subst hrate
                rw [hdb3, hdb2]
                refine ⟨by trivial, by simp [howned], ?_⟩
                simp [updateEstimateV1Result, estSubtotalsOf]

theorem convertToInvoiceV1_err {s : Store} {fuel uid estimateId : ℕ}
    {req : ConvertReq} {s' : Store} {e : String}
    (h : convertToInvoiceV1 s fuel uid estimateId req = (s', .error e)) :
    s' = s := by
  unfold convertToInvoiceV1 runTxRoute at h
  cases hb : convertToInvoiceV1Tx uid estimateId req (convDiscType req)
      (convDiscVal req) ⟨s, fuel⟩ with
  | none =>
      rw [hb] at h
      simp only [Prod.mk.injEq] at h
      exact h.1.symm
  | some p =>
      obtain ⟨r0, st0⟩ := p
      rw [hb] at h
      cases r0 with
      | error e0 =>
          simp only [Prod.mk.injEq] at h
          exact h.1.symm
      | ok a => simp at h

theorem convertToInvoiceV1_ok {s : Store} {fuel uid estimateId : ℕ}
    {req : ConvertReq} {s' : Store} {invId : ℕ}
    (h : convertToInvoiceV1 s fuel uid estimateId req = (s', .ok invId)) :
    invId = s.nextInvoiceId
    ∧ ∃ estRow, estimateOwned s estimateId uid = some estRow
        ∧ s' = convertResult s uid estimateId estRow (convDiscType req)
            (convDiscVal req) (convInvNotes req estRow) := by
  unfold convertToInvoiceV1 runTxRoute at h
  cases hb : convertToInvoiceV1Tx uid estimateId req (convDiscType req)
      (convDiscVal req) ⟨s, fuel⟩ with
  | none =>
      rw [hb] at h
      simp at h
  | some p =>
      obtain ⟨r0, st0⟩ := p
      rw [hb] at h
      cases r0 with
      | error e => simp at h
      | ok a =>
          simp only [Prod.mk.injEq, Except.ok.injEq] at h
          obtain ⟨hs', ha⟩ := h
          rw [convertToInvoiceV1Tx, txBind_eq_some] at hb
          obtain ⟨est, st1, h1, hb⟩ := hb
          rw [qread_eq_some] at h1
          obtain ⟨n1, hf1, ha1, hst1⟩ := h1
          simp only at ha1
          subst ha1
          subst hst1
          cases howned : estimateOwned s estimateId uid with
          | none =>
              rw [howned] at hb
              rw [txPure_eq_some] at hb
              obtain ⟨hres, _⟩ := hb
              cases hres
          | some estRow =>
              rw [howned] at hb
              simp only at hb
              rw [txBind_eq_some] at hb
              obtain ⟨invId0, stH, hH, hb⟩ := hb
              rw [query_eq_some] at hH
              obtain ⟨nH, hfH, haH, hstH⟩ := hH
              rw [txBind_eq_some] at hb
              obtain ⟨varLines, stR1, hR1, hb⟩ := hb
              rw [qread_eq_some] at hR1
              obtain ⟨nR1, hfR1, hvar, hstR1⟩ := hR1
              rw [txBind_eq_some] at hb
              obtain ⟨acc1, stL1, hL1, hb⟩ := hb
              obtain ⟨hdbL1, hacc1⟩ := convInsVarLines_ok _ _ _ _ _ _ hL1
              rw [txBind_eq_some] at hb
              obtain ⟨customLines, stR2, hR2, hb⟩ := hb
              rw [qread_eq_some] at hR2
              obtain ⟨nR2, hfR2, hcust, hstR2⟩ := hR2
              rw [txBind_eq_some] at hb
              obtain ⟨acc2, stL2, hL2, hb⟩ := hb
              obtain ⟨hdbL2, hacc2⟩ := convInsCustomLines_ok _ _ _ _ _ _ hL2
              rw [txBind_eq_some] at hb
              obtain ⟨taxRate, stT, hT, hb⟩ := hb
              rw [readTaxRate, qread_eq_some] at hT
              obtain ⟨nT, hfT, hrate, hstT⟩ := hT
              rw [txBind_eq_some] at hb
              obtain ⟨u1, stU, hU, hb⟩ := hb
              rw [qwrite_eq_some] at hU
              obtain ⟨nU, hfU, hstU⟩ := hU
              rw [txBind_eq_some] at hb
              obtain ⟨u2, stD1, hD1, hb⟩ := hb
              rw [qwrite_eq_some] at hD1
              obtain ⟨nD1, hfD1, hstD1⟩ := hD1
              rw [txBind_eq_some] at hb
              obtain ⟨u3, stD2, hD2, hb⟩ := hb
              rw [qwrite_eq_some] at hD2
              obtain ⟨nD2, hfD2, hstD2⟩ := hD2
              rw [txBind_eq_some] at hb
              obtain ⟨u4, stD3, hD3, hb⟩ := hb
              rw [qwrite_eq_some] at hD3
              obtain ⟨nD3, hfD3, hstD3⟩ := hD3
              rw [txPure_eq_some] at hb
              obtain ⟨hres, hst⟩ := hb
              cases hres
              subst hstH
              subst hstR1
              subst hstR2
              subst hstT
              subst hstU
              subst hstD1
              subst hstD2
              subst hstD3
              subst hst
              subst ha
              subst hs'
              simp only at haH hvar hdbL1 hacc1 hcust hdbL2 hacc2 hrate
              subst haH
              subst hvar
              subst hacc1
              subst hcust
              subst hacc2
              subst hrate
              refine ⟨by trivial, estRow, rfl, ?_⟩
              rw [hdbL2, hdbL1]
              simp [convertResult, convertFinalTotal, hdbL1, hdbL2]

theorem srcEstBlock_ok {uid : ℕ} {srcEstId : JNum} {st : TxSt} {u : Unit}
    {st' : TxSt} (h : srcEstBlock uid srcEstId st = some (u, st')) :
    st'.db = srcEstCleanup st.db uid srcEstId := by
  cases srcEstId with
  | fin v =>
      rw [srcEstBlock] at h
      rw [txBind_eq_some] at h
      obtain ⟨own, st1, h1, h⟩ := h
      rw [qread_eq_some] at h1
      obtain ⟨n1, hf1, hown, hst1⟩ := h1
      subst hown
      subst hst1
      by_cases hpos : 0 < (st.db.estimates.filter
          (fun p => decide ((p.1 : ℚ) = v ∧ p.2.user_id = uid))).length
      · rw [if_pos hpos] at h
        rw [txBind_eq_some] at h
        obtain ⟨u1, stA, hA, h⟩ := h
        rw [qwrite_eq_some] at hA
        obtain ⟨nA, hfA, hstA⟩ := hA
        rw [txBind_eq_some] at h
        obtain ⟨u2, stB, hB, h⟩ := h
        rw [qwrite_eq_some] at hB
        obtain ⟨nB, hfB, hstB⟩ := hB
        rw [qwrite_eq_some] at h
        obtain ⟨nC, hfC, hstC⟩ := h
        subst hstA
        subst hstB
        subst hstC
        simp only [srcEstCleanup]
        rw [if_pos hpos]
      · rw [if_neg hpos] at h
        rw [txPure_eq_some] at h
        obtain ⟨_, hst⟩ := h
        subst hst
        simp only [srcEstCleanup]
        rw [if_neg hpos]
  | nan =>
      rw [show srcEstBlock uid .nan = Tx.pure () from rfl, txPure_eq_some] at h
      obtain ⟨_, hst⟩ := h
      subst hst
      simp [srcEstCleanup]
  | inf =>
      rw [show srcEstBlock uid .inf = Tx.pure () from rfl, txPure_eq_some] at h
      obtain ⟨_, hst⟩ := h
      subst hst
      simp [srcEstCleanup]
  | ninf =>
      rw [show srcEstBlock uid .ninf = Tx.pure () from rfl, txPure_eq_some] at h
      obtain ⟨_, hst⟩ := h
      subst hst
      simp [srcEstCleanup]

theorem createInvoiceV1_ok {s : Store} {fuel uid : ℕ} {req : InvoiceReq}
    {s' : Store} {invId : ℕ}
    (h : createInvoiceV1 s fuel uid req = (s', .ok invId)) :
    invId = s.nextInvoiceId
    ∧ s' = createInvoiceV1Result s uid req (parseDiscTypeInv req.discount_type)
        (parseDiscVal (parseDiscTypeInv req.discount_type) req.discount_value)
        (jsSlice (toStringJs req.notes) 2000) req.source_estimate_id.toNum := by
  simp only [createInvoiceV1] at h
  unfold runTxRoute at h
  cases hb : createInvoiceV1Tx uid req (parseDiscTypeInv req.discount_type)
      (parseDiscVal (parseDiscTypeInv req.discount_type) req.discount_value)
      (jsSlice (toStringJs req.notes) 2000) req.source_estimate_id.toNum
      ⟨s, fuel⟩ with
  | none =>
      rw [hb] at h
      simp at h
  | some p =>
      obtain ⟨r0, st0⟩ := p
      rw [hb] at h
      cases r0 with
      | error e => simp at h
      | ok a =>
          simp only [Prod.mk.injEq, Except.ok.injEq] at h
          obtain ⟨hs', ha⟩ := h
          rw [createInvoiceV1Tx, txBind_eq_some] at hb
          obtain ⟨invId0, stH, hH, hb⟩ := hb
          rw [query_eq_some] at hH
          obtain ⟨nH, hfH, haH, hstH⟩ := hH
          rw [txBind_eq_some] at hb
          obtain ⟨acc1, stL1, hL1, hb⟩ := hb
          obtain ⟨hdbL1, hacc1⟩ := insInvVarItemsV1_ok _ _ _ _ _ _ hL1
          rw [txBind_eq_some] at hb
          obtain ⟨acc2, stL2, hL2, hb⟩ := hb
          obtain ⟨hdbL2, hacc2⟩ := insInvCustomItemsV1_ok _ _ _ _ _ _ hL2
          rw [txBind_eq_some] at hb
          obtain ⟨taxRate, stT, hT, hb⟩ := hb
          rw [readTaxRate, qread_eq_some] at hT
          obtain ⟨nT, hfT, hrate, hstT⟩ := hT
          rw [txBind_eq_some] at hb
          obtain ⟨u1, stU, hU, hb⟩ := hb
          rw [qwrite_eq_some] at hU
          obtain ⟨nU, hfU, hstU⟩ := hU
          rw [txBind_eq_some] at hb
          obtain ⟨u2, stS, hS, hb⟩ := hb
          have hsrc := srcEstBlock_ok hS
          rw [txPure_eq_some] at hb
          obtain ⟨hres, hst⟩ := hb
          cases hres
          subst hstH
          subst hstT
          subst hstU
          subst hst
          subst ha
          subst hs'
          simp only at haH hdbL1 hacc1 hdbL2 hacc2 hrate
          subst haH
          subst hacc1
          subst hacc2
          subst hrate
          refine ⟨by trivial, ?_⟩
          rw [hsrc]
          simp only
          rw [hdbL2, hdbL1]
          simp [createInvoiceV1Result, hdbL1, hdbL2]

/-! ## Table lemmas -/

theorem rowsFor_append {α : Type} (t u : List (ℕ × α)) (i : ℕ) :
    rowsFor (t ++ u) i = rowsFor t i ++ rowsFor u i := by
  simp [rowsFor]

theorem rowsFor_map_self {α : Type} (l : List α) (i : ℕ) :
    rowsFor (l.map (fun r => (i, r))) i = l := by
  induction l with
  | nil => rfl
  | cons x xs ih =>
      simp only [rowsFor, List.map_cons, List.filterMap_cons] at ih ⊢
      simp_all

theorem rowsFor_nil_of_lt {α : Type} (t : List (ℕ × α)) (i : ℕ)
    (h : ∀ p ∈ t, p.1 < i) : rowsFor t i = [] := by
  induction t with
  | nil => rfl
  | cons p t ih =>
      have hp : p.1 < i := h p (List.mem_cons_self p t)
      have hne : ¬ (p.1 = i) := by omega
      simp only [rowsFor, List.filterMap_cons, if_neg hne]
      exact ih (fun q hq => h q (List.mem_cons_of_mem p hq))

theorem rowsFor_deleteFor {α : Type} (t : List (ℕ × α)) (i : ℕ) :
    rowsFor (deleteFor t i) i = [] := by
  induction t with
  | nil => rfl
  | cons p t ih =>
      by_cases hp : p.1 = i
      · simp only [deleteFor, List.filter_cons, hp]
        simp only [deleteFor] at ih
        simp only [decide_eq_true_eq]
        rw [if_neg (by simp)]
        exact ih
      · simp only [deleteFor, List.filter_cons] at ih ⊢
        rw [if_pos (by simp [hp])]
        simp only [rowsFor, List.filterMap_cons, if_neg hp]
        exact ih

theorem lookupRow_append_fresh {α : Type} (t : List (ℕ × α)) (i : ℕ) (x : α)
    (h : ∀ p ∈ t, p.1 ≠ i) : lookupRow (t ++ [(i, x)]) i = some x := by
  induction t with
  | nil => simp [lookupRow]
  | cons p t ih =>
      have hp : p.1 ≠ i := h p (List.mem_cons_self p t)
      unfold lookupRow
      rw [List.cons_append, List.find?_cons_of_neg _ (by simp [hp])]
      exact ih (fun q hq => h q (List.mem_cons_of_mem p hq))

theorem lookup_updateEstimateTotal {t : List (ℕ × EstimateRow)} {i uid : ℕ}
    {e : EstimateRow} (v : JNum) (h : lookupRow t i = some e)
    (hu : e.user_id = uid) :
    lookupRow (updateEstimateTotal t i uid v) i = some { e with total := v } := by
  induction t with
  | nil => simp [lookupRow] at h
  | cons p t ih =>
      by_cases hp : p.1 = i
      · simp only [lookupRow] at h
        rw [List.find?_cons_of_pos _ (by simp [hp])] at h
        simp only [Option.map_some'] at h
        cases h
        simp only [updateEstimateTotal, List.map_cons]
        rw [if_pos (show p.1 = i ∧ p.2.user_id = uid from ⟨hp, hu⟩)]
        unfold lookupRow
        rw [List.find?_cons_of_pos _ (by simp [hp])]
        rfl
      · simp only [lookupRow] at h
        rw [List.find?_cons_of_neg _ (by simp [hp])] at h
        simp only [updateEstimateTotal, List.map_cons]
        have hc : ¬ (p.1 = i ∧ p.2.user_id = uid) := fun hcc => hp hcc.1
        rw [if_neg hc]
        unfold lookupRow
        rw [List.find?_cons_of_neg _ (by simp [hp])]
        exact ih h

theorem lookup_updateEstimateHeader {t : List (ℕ × EstimateRow)} {i uid : ℕ}
    {e : EstimateRow} (ci : JsVal) (n : String) (h : lookupRow t i = some e)
    (hu : e.user_id = uid) :
    lookupRow (updateEstimateHeader t i uid ci n) i
      = some { e with customer_info := ci, notes := n } := by
  induction t with
  | nil => simp [lookupRow] at h
  | cons p t ih =>
      by_cases hp : p.1 = i
      · simp only [lookupRow] at h
        rw [List.find?_cons_of_pos _ (by simp [hp])] at h
        simp only [Option.map_some'] at h
        cases h
        simp only [updateEstimateHeader, List.map_cons]
        rw [if_pos (show p.1 = i ∧ p.2.user_id = uid from ⟨hp, hu⟩)]
        unfold lookupRow
        rw [List.find?_cons_of_pos _ (by simp [hp])]
        rfl
      · simp only [lookupRow] at h
        rw [List.find?_cons_of_neg _ (by simp [hp])] at h
        simp only [updateEstimateHeader, List.map_cons]
        have hc : ¬ (p.1 = i ∧ p.2.user_id = uid) := fun hcc => hp hcc.1
        rw [if_neg hc]
        unfold lookupRow
        rw [List.find?_cons_of_neg _ (by simp [hp])]
        exact ih h

theorem lookup_updateInvoiceTotal {t : List (ℕ × InvoiceRow)} {i uid : ℕ}
    {e : InvoiceRow} (v : JNum) (h : lookupRow t i = some e)
    (hu : e.user_id = uid) :
    lookupRow (updateInvoiceTotal t i uid v) i = some { e with total := v } := by
  induction t with
  | nil => simp [lookupRow] at h
  | cons p t ih =>
      by_cases hp : p.1 = i
      · simp only [lookupRow] at h
        rw [List.find?_cons_of_pos _ (by simp [hp])] at h
        simp only [Option.map_some'] at h
        cases h
        simp only [updateInvoiceTotal, List.map_cons]
        rw [if_pos (show p.1 = i ∧ p.2.user_id = uid from ⟨hp, hu⟩)]
        unfold lookupRow
        rw [List.find?_cons_of_pos _ (by simp [hp])]
        rfl
      · simp only [lookupRow] at h
        rw [List.find?_cons_of_neg _ (by simp [hp])] at h
        simp only [updateInvoiceTotal, List.map_cons]
        have hc : ¬ (p.1 = i ∧ p.2.user_id = uid) := fun hcc => hp hcc.1
        rw [if_neg hc]
        unfold lookupRow
        rw [List.find?_cons_of_neg _ (by simp [hp])]
        exact ih h

theorem lookup_deleteEstimate_none {t : List (ℕ × EstimateRow)} {i uid : ℕ}
    {e : EstimateRow} (hnd : (t.map Prod.fst).Nodup)
    (h : lookupRow t i = some e) (hu : e.user_id = uid) :
    lookupRow (deleteEstimate t i uid) i = none := by
  induction t with
  | nil => simp [lookupRow] at h
  | cons p t ih =>
      simp only [List.map_cons, List.nodup_cons] at hnd
      obtain ⟨hnotin, hnd2⟩ := hnd
      by_cases hp : p.1 = i
      · simp only [lookupRow] at h
        rw [List.find?_cons_of_pos _ (by simp [hp])] at h
        simp only [Option.map_some'] at h
        cases h
        simp only [deleteEstimate, List.filter_cons]
        rw [if_neg (by simp [hp, hu])]
        have hne : ∀ q ∈ t, q.1 ≠ i := by
          intro q hq hqi
          exact hnotin (hp ▸ hqi ▸ List.mem_map_of_mem Prod.fst hq)
        unfold lookupRow
        rw [List.find?_eq_none.mpr]
        · rfl
        · intro q hq
          have hqt : q ∈ t := List.mem_of_mem_filter hq
          simpa using hne q hqt
      · simp only [lookupRow] at h
        rw [List.find?_cons_of_neg _ (by simp [hp])] at h
        simp only [deleteEstimate, List.filter_cons]
        have hc : ¬ (p.1 = i ∧ p.2.user_id = uid) := fun hcc => hp hcc.1
        rw [if_pos (by exact decide_eq_true hc)]
        unfold lookupRow
        rw [List.find?_cons_of_neg _ (by simp [hp])]
        exact ih hnd2 h

theorem estimateOwned_some {s : Store} {i uid : ℕ} {e : EstimateRow}
    (h : estimateOwned s i uid = some e) :
    lookupRow s.estimates i = some e ∧ e.user_id = uid := by
  unfold estimateOwned at h
  cases hl : lookupRow s.estimates i with
  | none =>
      rw [hl] at h
      cases h
  | some e0 =>
      rw [hl] at h
      dsimp only at h
      by_cases hu : e0.user_id = uid
      · rw [if_pos hu] at h
        cases h
        exact ⟨rfl, hu⟩
      · rw [if_neg hu] at h
        cases h

/-! ## Claim theorems -/

/-- Claim C8: update fully replaces a document's lines — updating an
owned estimate with empty variation-item and custom-item lists yields a
document with no line rows of either kind and a persisted total of 0. -/
theorem c8_update_empty_lines (s : Store) (fuel uid estimateId : ℕ)
    (req : EstimateReq) (s' : Store) (outId : ℕ) (e : EstimateRow)
    (hvar : req.variationItems = []) (hcust : req.customItems = [])
    (hown : estimateOwned s estimateId uid = some e)
    (h : updateEstimateV1 s fuel uid estimateId req = (s', .ok outId)) :
    rowsFor s'.estimate_items estimateId = []
    ∧ rowsFor s'.custom_estimate_items estimateId = []
    ∧ ∃ r, lookupRow s'.estimates estimateId = some r ∧ r.total = .fin 0 := by
  obtain ⟨-, -, hres⟩ := updateEstimateV1_ok h
  obtain ⟨hl, hu⟩ := estimateOwned_some hown
  subst hres
  simp only [updateEstimateV1Result, hvar, hcust, v1VarRows, List.filterMap_nil,
    List.map_nil, List.append_nil, estSubtotalsOf, accumEstRows, accumCustomRows]
  refine ⟨rowsFor_deleteFor _ _, rowsFor_deleteFor _ _, ?_⟩
  have h1 := lookup_updateEstimateHeader (t := s.estimates)
    (req.customer_info.jsOr (.objv "")) ((toStringJs req.notes).trim) hl hu
  have h2 := lookup_updateEstimateTotal
    (noDiscountTotal (effTaxRateRow (lookupRow s.store_info uid)) (.fin 0) (.fin 0))
    h1 hu
  refine ⟨_, h2, ?_⟩
  simp only [noDiscountTotal, jmul_fin, jadd_fin]
  norm_num

/-- Claim C4: after a create or update of an estimate — the documents
with no discount — through the first-variant routes, the persisted
total equals `taxable_subtotal*(1+r) + nontaxable_subtotal` recomputed
from the line rows stored by that same write, with `r` the user's
effective tax rate; and the outcome of either route is independent of
any client-supplied `total` field in the request body. -/
theorem c4_total_recomputed_from_stored_lines :
    (∀ (s : Store) (fuel uid : ℕ) (req : EstimateReq) (s' : Store) (estId : ℕ),
      s.WF →
      createEstimateV1 s fuel uid req = (s', .ok estId) →
      ∃ r, lookupRow s'.estimates estId = some r
        ∧ r.total =
            noDiscountTotal (effTaxRateRow (lookupRow s.store_info uid))
              (estSubtotalsOf (rowsFor s'.estimate_items estId)
                (rowsFor s'.custom_estimate_items estId)).1
              (estSubtotalsOf (rowsFor s'.estimate_items estId)
                (rowsFor s'.custom_estimate_items estId)).2)
    ∧ (∀ (s : Store) (fuel uid estimateId : ℕ) (req : EstimateReq)
        (s' : Store) (outId : ℕ),
      updateEstimateV1 s fuel uid estimateId req = (s', .ok outId) →
      ∃ r, lookupRow s'.estimates estimateId = some r
        ∧ r.total =
            noDiscountTotal (effTaxRateRow (lookupRow s.store_info uid))
              (estSubtotalsOf (rowsFor s'.estimate_items estimateId)
                (rowsFor s'.custom_estimate_items estimateId)).1
              (estSubtotalsOf (rowsFor s'.estimate_items estimateId)
                (rowsFor s'.custom_estimate_items estimateId)).2)
    ∧ (∀ (s : Store) (fuel uid : ℕ) (req : EstimateReq) (t1 t2 : JsVal),
        createEstimateV1 s fuel uid { req with total := t1 }
          = createEstimateV1 s fuel uid { req with total := t2 })
    ∧ (∀ (s : Store) (fuel uid estimateId : ℕ) (req : EstimateReq)
        (t1 t2 : JsVal),
        updateEstimateV1 s fuel uid estimateId { req with total := t1 }
          = updateEstimateV1 s fuel uid estimateId { req with total := t2 }) := by
  refine ⟨?_, ?_, ?_, ?_⟩
  · intro s fuel uid req s' estId hwf h
    obtain ⟨hid, hres⟩ := createEstimateV1_ok h
    obtain ⟨hnd, hlt, hitems, hcit, -, -, -⟩ := hwf
    subst hres
    subst hid
    simp only [createEstimateV1Result]
    have hfr1 : rowsFor (s.estimate_items
        ++ (v1VarRows s.catalog req.variationItems).map
          (fun r2 => (s.nextEstimateId, r2))) s.nextEstimateId
        = v1VarRows s.catalog req.variationItems := by
      rw [rowsFor_append, rowsFor_nil_of_lt _ _ hitems, rowsFor_map_self]
      simp
    have hfr2 : rowsFor (s.custom_estimate_items
        ++ (req.customItems.map resolveCustomItemV1).map
          (fun r2 => (s.nextEstimateId, r2))) s.nextEstimateId
        = req.customItems.map resolveCustomItemV1 := by
      rw [rowsFor_append, rowsFor_nil_of_lt _ _ hcit, rowsFor_map_self]
      simp
    have hfresh : ∀ p ∈ s.estimates, p.1 ≠ s.nextEstimateId := by
      intro p hp heq
      have := hlt p hp
      omega
    have hl := lookupRow_append_fresh s.estimates s.nextEstimateId
      (estimateHeaderOf uid req ((toStringJs req.notes).trim)) hfresh
    have h2 := lookup_updateEstimateTotal
      (noDiscountTotal (effTaxRateRow (lookupRow s.store_info uid))
        (estSubtotalsOf (v1VarRows s.catalog req.variationItems)
          (req.customItems.map resolveCustomItemV1)).1
        (estSubtotalsOf (v1VarRows s.catalog req.variationItems)
          (req.customItems.map resolveCustomItemV1)).2)
      hl rfl
    refine ⟨_, h2, ?_⟩
    rw [hfr1, hfr2]
  · intro s fuel uid estimateId req s' outId h
    obtain ⟨hid, hownne, hres⟩ := updateEstimateV1_ok h
    subst hres
    cases hown : estimateOwned s estimateId uid with
    | none => exact absurd hown hownne
    | some e =>
        obtain ⟨hl, hu⟩ := estimateOwned_some hown
        simp only [updateEstimateV1Result]
        have hfr1 : rowsFor (deleteFor s.estimate_items estimateId
            ++ (v1VarRows s.catalog req.variationItems).map
              (fun r2 => (estimateId, r2))) estimateId
            = v1VarRows s.catalog req.variationItems := by
          rw [rowsFor_append, rowsFor_deleteFor, rowsFor_map_self]
          simp
        have hfr2 : rowsFor (deleteFor s.custom_estimate_items estimateId
            ++ (req.customItems.map resolveCustomItemV1).map
              (fun r2 => (estimateId, r2))) estimateId
            = req.customItems.map resolveCustomItemV1 := by
          rw [rowsFor_append, rowsFor_deleteFor, rowsFor_map_self]
          simp
        have h1 := lookup_updateEstimateHeader (t := s.estimates)
          (req.customer_info.jsOr (.objv "")) ((toStringJs req.notes).trim) hl hu
        have h2 := lookup_updateEstimateTotal
          (noDiscountTotal (effTaxRateRow (lookupRow s.store_info uid))
            (estSubtotalsOf (v1VarRows s.catalog req.variationItems)
              (req.customItems.map resolveCustomItemV1)).1
            (estSubtotalsOf (v1VarRows s.catalog req.variationItems)
              (req.customItems.map resolveCustomItemV1)).2)
          h1 hu
        refine ⟨_, h2, ?_⟩
        rw [hfr1, hfr2]
  · intro s fuel uid req t1 t2
    rfl
  · intro s fuel uid estimateId req t1 t2
    rfl

/-- Claim C1: conversion is all-or-nothing.  On success the estimate
header and both kinds of its line rows are gone, and the new invoice's
variation and custom lines exactly mirror the estimate's resolved lines
(one per line, preserving effective price, taxable flag and label, the
zero-line case included).  On any failure the store is unchanged: the
estimate survives intact and no invoice appears. -/
theorem c1_convert_atomic (s : Store) (fuel uid estimateId : ℕ)
    (req : ConvertReq) (s' : Store) (out : Except String ℕ)
    (hwf : s.WF) (h : convertToInvoiceV1 s fuel uid estimateId req = (s', out)) :
    (∀ e, out = .error e → s' = s)
    ∧ (∀ invId, out = .ok invId →
        lookupRow s'.estimates estimateId = none
        ∧ rowsFor s'.estimate_items estimateId = []
        ∧ rowsFor s'.custom_estimate_items estimateId = []
        ∧ rowsFor s'.invoice_items invId
            = (resolvedEstLines s.catalog
                (rowsFor s.estimate_items estimateId)).map convInvRowOf
        ∧ rowsFor s'.custom_invoice_items invId
            = (rowsFor s.custom_estimate_items estimateId).map convCustomRowOf) := by
  obtain ⟨hnd, -, -, -, -, hii, hcii⟩ := hwf
  constructor
  · intro e he
    subst he
    exact convertToInvoiceV1_err h
  · intro invId hok
    subst hok
    obtain ⟨hid, estRow, hown, hres⟩ := convertToInvoiceV1_ok h
    obtain ⟨hl, hu⟩ := estimateOwned_some hown
    subst hres
    subst hid
    simp only [convertResult]
    refine ⟨lookup_deleteEstimate_none hnd hl hu, rowsFor_deleteFor _ _,
      rowsFor_deleteFor _ _, ?_, ?_⟩
    · rw [show (resolvedEstLines s.catalog
            (rowsFor s.estimate_items estimateId)).map
            (fun L => (s.nextInvoiceId, convInvRowOf L))
          = ((resolvedEstLines s.catalog
              (rowsFor s.estimate_items estimateId)).map convInvRowOf).map
              (fun r => (s.nextInvoiceId, r)) from by
            rw [List.map_map]
            rfl]
      rw [rowsFor_append, rowsFor_nil_of_lt _ _ hii, rowsFor_map_self]
      simp
    · rw [show (rowsFor s.custom_estimate_items estimateId).map
            (fun c => (s.nextInvoiceId, convCustomRowOf c))
          = ((rowsFor s.custom_estimate_items estimateId).map
              convCustomRowOf).map (fun r => (s.nextInvoiceId, r)) from by
            rw [List.map_map]
            rfl]
      rw [rowsFor_append, rowsFor_nil_of_lt _ _ hcii, rowsFor_map_self]
      simp

theorem srcEstCleanup_invoices (s : Store) (uid : ℕ) (v : JNum) :
    (srcEstCleanup s uid v).invoices = s.invoices := by
  cases v with
  | fin q =>
      simp only [srcEstCleanup]
      split <;> rfl
  | nan => rfl
  | inf => rfl
  | ninf => rfl

theorem jsSlice_length_le (s : String) (n : ℕ) : (jsSlice s n).length ≤ n := by
  show (s.data.take n).length ≤ n
  rw [List.length_take]
  exact min_le_left n s.data.length

/-- Claim C7 (amended): estimate create and update reject over-long
notes (> 150 characters after trimming) before any write, with a
validation error and the store untouched; invoice create never rejects
on notes — it silently truncates them to the first 2000 characters. -/
theorem c7_notes_amended :
    (∀ (s : Store) (fuel uid : ℕ) (req : EstimateReq),
      150 < ((toStringJs req.notes).trim).length →
      createEstimateV1 s fuel uid req
        = (s, .error "Notes must be 150 characters or fewer."))
    ∧ (∀ (s : Store) (fuel uid estimateId : ℕ) (req : EstimateReq),
      150 < ((toStringJs req.notes).trim).length →
      updateEstimateV1 s fuel uid estimateId req
        = (s, .error "Notes must be 150 characters or fewer."))
    ∧ (∀ (s : Store) (fuel uid : ℕ) (req : InvoiceReq) (s' : Store) (invId : ℕ),
      s.WF →
      createInvoiceV1 s fuel uid req = (s', .ok invId) →
      ∃ r, lookupRow s'.invoices invId = some r
        ∧ r.notes = jsSlice (toStringJs req.notes) 2000
        ∧ r.notes.length ≤ 2000) := by
  refine ⟨?_, ?_, ?_⟩
  · intro s fuel uid req hn
    simp only [createEstimateV1]
    rw [if_pos hn]
  · intro s fuel uid estimateId req hn
    simp only [updateEstimateV1]
    rw [if_pos hn]
  · intro s fuel uid req s' invId hwf h
    obtain ⟨hnd, -, -, -, hinv, -, -⟩ := hwf
    obtain ⟨hid, hres⟩ := createInvoiceV1_ok h
    subst hres
    subst hid
    simp only [createInvoiceV1Result, srcEstCleanup_invoices]
    have hfresh : ∀ p ∈ s.invoices, p.1 ≠ s.nextInvoiceId := by
      intro p hp heq
      have := hinv p hp
      omega
    exact ⟨_, lookup_updateInvoiceTotal _
      (lookupRow_append_fresh _ _ _ hfresh) rfl, rfl, jsSlice_length_le _ _⟩

theorem jsOr_falsy {a : JsVal} (h : a.truthy = false) (b : JsVal) :
    a.jsOr b = b := by
  unfold JsVal.jsOr
  rw [if_neg (by simp [h])]

/-- Claim C9 (amended): an unresolvable catalog reference degrades to a
zero-price line instead of failing the document, but the fallback is
silent at estimate creation — with no overrides the stored label falls
back to the empty string, not a generic placeholder.  The generic
"Item" label exists only in the invoice-items read view, when both the
stored display name and the catalog reference are missing. -/
theorem c9_degraded_lookup_amended :
    (∀ (cat : Catalog) (raw : VarItemReq),
      catalogFindJ cat raw.variation_id.toNum = none →
      raw.unit_price.toNum.isFin = false →
      (raw.display_name.jsOr raw.product_name).truthy = false →
      (resolveVarItemV1 cat raw).unit_price = some 0
      ∧ (resolveVarItemV1 cat raw).display_name = some "")
    ∧ (∀ (cat : Catalog) (r : InvItemRow),
      r.display_name = none →
      catalogFindJ cat r.product_variation_id = none →
      invoiceItemViewName cat r = "Item") := by
  constructor
  · intro cat raw hfind hfin hlab
    constructor
    · show (some (match raw.unit_price.toNum with
        | JNum.fin u => u
        | _ => ((catalogFindJ cat raw.variation_id.toNum).getD
            canonicalFallback).price) : Option ℚ) = some (0 : ℚ)
      rw [hfind]
      cases ht : raw.unit_price.toNum with
      | fin u =>
          rw [ht] at hfin
          simp [JNum.isFin] at hfin
      | nan => rfl
      | inf => rfl
      | ninf => rfl
    · show some (toStringJs ((raw.display_name.jsOr raw.product_name).jsOr
        ((JsVal.str ((catalogFindJ cat raw.variation_id.toNum).getD
          canonicalFallback).product_name).jsOr (.str "")))) = some ""
      rw [hfind, jsOr_falsy hlab]
      rfl
  · intro cat r hdn hfind
    unfold invoiceItemViewName
    rw [hdn, hfind]

theorem parseIntJs_fin_or_nan (v : JsVal) :
    (∃ q, parseIntJs v = .fin q) ∨ parseIntJs v = .nan := by
  cases v with
  | undef => exact Or.inr rfl
  | nullv => exact Or.inr rfl
  | bool b => exact Or.inr rfl
  | objv d => exact Or.inr rfl
  | jnum n =>
      cases n with
      | fin q => exact Or.inl ⟨ratTrunc q, rfl⟩
      | nan => exact Or.inr rfl
      | inf => exact Or.inr rfl
      | ninf => exact Or.inr rfl
  | str s =>
      have hdef : parseIntJs (.str s)
          = (match s.data with
             | '-' :: rest =>
                 match parseIntLead rest with
                 | some n => JNum.fin (-(n : ℚ))
                 | none => JNum.nan
             | '+' :: rest =>
                 match parseIntLead rest with
                 | some n => JNum.fin ((n : ℚ))
                 | none => JNum.nan
             | l =>
                 match parseIntLead l with
                 | some n => JNum.fin ((n : ℚ))
                 | none => JNum.nan) := rfl
      rw [hdef]
      split
      · split
        · exact Or.inl ⟨_, rfl⟩
        · exact Or.inr rfl
      · split
        · exact Or.inl ⟨_, rfl⟩
        · exact Or.inr rfl
      · split
        · exact Or.inl ⟨_, rfl⟩
        · exact Or.inr rfl

/-- Claim C5 (amended): the second variant's quantity coercion always
yields an integer value at least 1, whatever the input; the first
variant's effective unit price is non-negative provided the price
override (when it is a finite number) and the catalog prices are
non-negative — a negative finite override passes through unchecked, and
the first variant's quantity is only defaulted to 1 on falsy input, not
floored. -/
theorem c5_resolution_bounds_amended :
    (∀ v : JsVal, ∃ q : ℚ, qtyV2 v = .fin q ∧ 1 ≤ q)
    ∧ (∀ (cat : Catalog) (raw : VarItemReq),
      (∀ u : ℚ, raw.unit_price.toNum = .fin u → 0 ≤ u) →
      (∀ p ∈ cat, 0 ≤ p.2.price) →
      ∃ u : ℚ, (resolveVarItemV1 cat raw).unit_price = some u ∧ 0 ≤ u) := by
  constructor
  · intro v
    unfold qtyV2
    rcases parseIntJs_fin_or_nan v with ⟨q, hq⟩ | hq
    · rw [hq]
      by_cases h0 : q = 0
      · subst h0
        refine ⟨max 1 1, ?_, le_max_left 1 1⟩
        simp [JNum.or1, JNum.truthyN, JNum.jmax]
      · refine ⟨max 1 q, ?_, le_max_left 1 q⟩
        simp [JNum.or1, JNum.truthyN, JNum.jmax, h0]
    · rw [hq]
      refine ⟨max 1 1, ?_, le_max_left 1 1⟩
      simp [JNum.or1, JNum.truthyN, JNum.jmax]
  · intro cat raw hov hcat
    unfold resolveVarItemV1
    cases ht : raw.unit_price.toNum with
    | fin u => exact ⟨u, rfl, hov u ht⟩
    | nan =>
        refine ⟨((catalogFindJ cat raw.variation_id.toNum).getD
          canonicalFallback).price, rfl, ?_⟩
        cases hfind : catalogFindJ cat raw.variation_id.toNum with
        | none => simp [canonicalFallback]
        | some e =>
            simp only [Option.getD]
            cases hv : raw.variation_id.toNum with
            | fin q =>
                rw [hv] at hfind
                simp only [catalogFindJ] at hfind
                unfold catalogFind at hfind
                cases hf : cat.find? (fun p => p.1 = q) with
                | none => rw [hf] at hfind; cases hfind
                | some pe =>
                    rw [hf] at hfind
                    cases hfind
                    exact hcat pe (List.mem_of_find?_eq_some hf)
            | nan => rw [hv] at hfind; cases hfind
            | inf => rw [hv] at hfind; cases hfind
            | ninf => rw [hv] at hfind; cases hfind
    | inf =>
        refine ⟨((catalogFindJ cat raw.variation_id.toNum).getD
          canonicalFallback).price, rfl, ?_⟩
        cases hfind : catalogFindJ cat raw.variation_id.toNum with
        | none => simp [canonicalFallback]
        | some e =>
            simp only [Option.getD]
            cases hv : raw.variation_id.toNum with
            | fin q =>
                rw [hv] at hfind
                simp only [catalogFindJ] at hfind
                unfold catalogFind at hfind
                cases hf : cat.find? (fun p => p.1 = q) with
                | none => rw [hf] at hfind; cases hfind
                | some pe =>
                    rw [hf] at hfind
                    cases hfind
                    exact hcat pe (List.mem_of_find?_eq_some hf)
            | nan => rw [hv] at hfind; cases hfind
            | inf => rw [hv] at hfind; cases hfind
            | ninf => rw [hv] at hfind; cases hfind
    | ninf =>
        refine ⟨((catalogFindJ cat raw.variation_id.toNum).getD
          canonicalFallback).price, rfl, ?_⟩
        cases hfind : catalogFindJ cat raw.variation_id.toNum with
        | none => simp [canonicalFallback]
        | some e =>
            simp only [Option.getD]
            cases hv : raw.variation_id.toNum with
            | fin q =>
                rw [hv] at hfind
                simp only [catalogFindJ] at hfind
                unfold catalogFind at hfind
                cases hf : cat.find? (fun p => p.1 = q) with
                | none => rw [hf] at hfind; cases hfind
                | some pe =>
                    rw [hf] at hfind
                    cases hfind
                    exact hcat pe (List.mem_of_find?_eq_some hf)
            | nan => rw [hv] at hfind; cases hfind
            | inf => rw [hv] at hfind; cases hfind
            | ninf => rw [hv] at hfind; cases hfind

theorem insEstVarItemsV1_skip {estId : ℕ} {bad : VarItemReq}
    (hbad : bad.variation_id.truthy = false) :
    ∀ (xs ys : List VarItemReq) (tS tN : JNum) (st : TxSt),
      insEstVarItemsV1 estId (xs ++ bad :: ys) tS tN st
        = insEstVarItemsV1 estId (xs ++ ys) tS tN st := by
  intro xs
  induction xs with
  | nil =>
      intro ys tS tN st
      rw [List.nil_append, List.nil_append, insEstVarItemsV1, if_pos hbad]
  | cons x xs ih =>
      intro ys tS tN st
      rw [List.cons_append, List.cons_append, insEstVarItemsV1, insEstVarItemsV1]
      by_cases hx : x.variation_id.truthy = false
      · rw [if_pos hx, if_pos hx]
        exact ih ys tS tN st
      · rw [if_neg hx, if_neg hx]
        unfold Tx.bind
        cases hq : qread (fun db => resolveVarItemV1 db.catalog x) st with
        | none => rfl
        | some p =>
            obtain ⟨row, st1⟩ := p
            dsimp only
            cases hw : qwrite (fun db =>
                { db with estimate_items := db.estimate_items ++ [(estId, row)] }) st1 with
            | none => rfl
            | some p2 =>
                obtain ⟨u, st2⟩ := p2
                dsimp only
                by_cases htax : estRowTaxable row
                · rw [if_pos htax, if_pos htax]
                  exact ih ys _ _ st2
                · rw [if_neg htax, if_neg htax]
                  exact ih ys _ _ st2

theorem insEstVarItemsV2_skip {estId : ℕ} {bad : VarItemReq}
    (hbad : (v2VariationId bad).isFin = false) :
    ∀ (xs ys : List VarItemReq) (tS tN : JNum) (st : TxSt),
      insEstVarItemsV2 estId (xs ++ bad :: ys) tS tN st
        = insEstVarItemsV2 estId (xs ++ ys) tS tN st := by
  intro xs
  induction xs with
  | nil =>
      intro ys tS tN st
      rw [List.nil_append, List.nil_append, insEstVarItemsV2,
        if_pos (by rw [hbad])]
  | cons x xs ih =>
      intro ys tS tN st
      rw [List.cons_append, List.cons_append, insEstVarItemsV2, insEstVarItemsV2]
      by_cases hx : (v2VariationId x).isFin = false
      · rw [if_pos hx, if_pos hx]
        exact ih ys tS tN st
      · rw [if_neg hx, if_neg hx]
        unfold Tx.bind
        cases hq : (match v2OverridePrice x with
            | JNum.fin u => Tx.pure u
            | _ => qread (fun db =>
                (((catalogFindJ db.catalog (v2VariationId x)).map
                  CatalogEntry.price).getD 0))) st with
        | none => rfl
        | some p =>
            obtain ⟨lineUnitPrice, st1⟩ := p
            dsimp only
            cases hw : qwrite (fun db =>
                let row : EstItemRow :=
                  { product_variation_id := v2VariationId x
                    quantity := qtyV2 x.quantity
                    unit_price := some lineUnitPrice
                    taxable := some (toBool x.taxable true)
                    display_name := v2DisplayName x }
                { db with estimate_items := db.estimate_items ++ [(estId, row)] }) st1 with
            | none => rfl
            | some p2 =>
                obtain ⟨u, st2⟩ := p2
                dsimp only
                by_cases htax : toBool x.taxable true
                · rw [if_pos htax, if_pos htax]
                  exact ih ys _ _ st2
                · rw [if_neg htax, if_neg htax]
                  exact ih ys _ _ st2

/-- Claim C10 (amended): the first estimates-create variant skips a
variation line exactly when its `variation_id` is falsy; the second
variant skips exactly when `Number(variation_id ?? variationId)` is not
finite (so a falsy-but-finite id such as 0 is processed there).  A
skipped line is dropped entirely — the route behaves identically to the
same request without that line: no row inserted, no subtotal or total
contribution, and the remaining lines processed normally. -/
theorem c10_variation_skip_amended :
    (∀ (s : Store) (fuel uid : ℕ) (req : EstimateReq)
      (xs ys : List VarItemReq) (bad : VarItemReq),
      req.variationItems = xs ++ bad :: ys →
      bad.variation_id.truthy = false →
      createEstimateV1 s fuel uid req
        = createEstimateV1 s fuel uid { req with variationItems := xs ++ ys })
    ∧ (∀ (s : Store) (fuel uid : ℕ) (req : EstimateReq)
      (xs ys : List VarItemReq) (bad : VarItemReq),
      req.variationItems = xs ++ bad :: ys →
      (v2VariationId bad).isFin = false →
      createEstimateV2 s fuel uid req
        = createEstimateV2 s fuel uid { req with variationItems := xs ++ ys }) := by
  constructor
  · intro s fuel uid req xs ys bad hreq hbad
    obtain ⟨rc, rci, rvi, rcu, rn, rt⟩ := req
    simp only at hreq
    subst hreq
    have hloop : ∀ (estId : ℕ) (tS tN : JNum),
        insEstVarItemsV1 estId (xs ++ bad :: ys) tS tN
          = insEstVarItemsV1 estId (xs ++ ys) tS tN := by
      intro estId tS tN
      funext st
      exact insEstVarItemsV1_skip hbad xs ys tS tN st
    simp only [createEstimateV1, createEstimateV1Tx]
    simp only [hloop]
  · intro s fuel uid req xs ys bad hreq hbad
    obtain ⟨rc, rci, rvi, rcu, rn, rt⟩ := req
    simp only at hreq
    subst hreq
    have hloop : ∀ (estId : ℕ) (tS tN : JNum),
        insEstVarItemsV2 estId (xs ++ bad :: ys) tS tN
          = insEstVarItemsV2 estId (xs ++ ys) tS tN := by
      intro estId tS tN
      funext st
      exact insEstVarItemsV2_skip hbad xs ys tS tN st
    simp only [createEstimateV2, createEstimateV2Tx]
    simp only [hloop]

/-! ## Concrete counterexamples and witnesses -/

theorem trim_empty : "".trim = "" := by
  unfold String.trim Substring.trim String.toSubstring
  unfold Substring.takeWhileAux Substring.takeRightWhileAux
  simp [String.endPos, String.utf8ByteSize, String.utf8ByteSize.go,
    Substring.toString, String.extract]

/-- Claim C5 counterexample: a line with quantity -2 and unit-price
override -5 resolves, in the first variant, to a stored quantity of -2
(not floored to 1) and a stored effective unit price of -5 (negative):
neither claimed bound holds. -/
theorem c5_counterexample :
    (resolveVarItemV1 [] rawC5).quantity = .fin (-2)
    ∧ (resolveVarItemV1 [] rawC5).unit_price = some (-5)
    ∧ (-2 : ℚ) < 1 ∧ (-5 : ℚ) < 0 :=
  ⟨rfl, rfl, by decide, by decide⟩

/-- Claim C6 counterexample: a stored per-user rate of 5 (far outside
`[0,1]`) is applied as-is by the totals computation — one taxable unit
of price 1 totals 6, not the 1.06 the claimed 0.06 fallback would
give. -/
theorem c6_counterexample :
    effTaxRateRow (some (some 5)) = 5
    ∧ (1 : ℚ) < 5
    ∧ noDiscountTotal (effTaxRateRow (some (some 5))) (.fin 1) (.fin 0) = .fin 6
    ∧ noDiscountTotal (6 / 100) (.fin 1) (.fin 0) = .fin (106 / 100)
    ∧ (6 : ℚ) ≠ 106 / 100 := by
  refine ⟨rfl, by norm_num, ?_, ?_, by norm_num⟩
  · rw [show effTaxRateRow (some (some 5)) = (5 : ℚ) from rfl]
    simp only [noDiscountTotal, jmul_fin, jadd_fin, JNum.fin.injEq]
    norm_num
  · simp only [noDiscountTotal, jmul_fin, jadd_fin, JNum.fin.injEq]
    norm_num

/-- Claim C7 counterexample: an invoice-create request with 2001
characters of notes is not rejected — it succeeds, and the stored notes
hold the silently truncated first 2000 characters. -/
theorem c7_counterexample :
    (toStringJs reqC7.notes).length = 2001
    ∧ (createInvoiceV1 emptyStore 5 7 reqC7).2 = Except.ok 1
    ∧ ∃ r, lookupRow (createInvoiceV1 emptyStore 5 7 reqC7).1.invoices 1 = some r
        ∧ r.notes.length = 2000 := by
  have h2 : (createInvoiceV1 emptyStore 5 7 reqC7).2 = Except.ok 1 := rfl
  have h : createInvoiceV1 emptyStore 5 7 reqC7
      = ((createInvoiceV1 emptyStore 5 7 reqC7).1, Except.ok 1) := by
    rw [← h2]
  refine ⟨?_, h2, ?_⟩
  · show (List.replicate 2001 'a').length = 2001
    rw [List.length_replicate]
  · obtain ⟨hid, hres⟩ := createInvoiceV1_ok h
    rw [hres]
    simp only [createInvoiceV1Result, srcEstCleanup_invoices]
    refine ⟨_, lookup_updateInvoiceTotal _
      (lookupRow_append_fresh _ _ _ (by intro p hp; cases hp)) rfl, ?_⟩
    show ((List.replicate 2001 'a').take 2000).length = 2000
    rw [List.length_take, List.length_replicate]
    omega

/-- Claim C9 counterexample: with an empty catalog, a line referencing
variation 7 with no overrides degrades to price 0 — but its stored
label is the empty string, not a generic placeholder such as "Item",
so the fallback is silent at estimate creation. -/
theorem c9_counterexample :
    catalogFindJ [] (JsVal.toNum rawC9.variation_id) = none
    ∧ (resolveVarItemV1 [] rawC9).unit_price = some 0
    ∧ (resolveVarItemV1 [] rawC9).display_name = some ""
    ∧ "" ≠ "Item" :=
  ⟨rfl, rfl, rfl, by decide⟩

/-- Claim C10 counterexample: `variation_id = 0` is falsy, yet the
second create variant processes the line — from an empty store the
request inserts one estimate line row instead of skipping it. -/
theorem c10_counterexample :
    itC10.variation_id.truthy = false
    ∧ (createEstimateV2 emptyStore 9 7 reqC10).2 = Except.ok 1
    ∧ (createEstimateV2 emptyStore 9 7 reqC10).1.estimate_items.length = 1 := by
  have hn : ¬ 150 < ((toStringJs reqC10.notes).trim).length := by
    rw [show (toStringJs reqC10.notes).trim = "" from trim_empty]
    decide
  refine ⟨rfl, ?_, ?_⟩
  · simp only [createEstimateV2]
    rw [if_neg hn]
    rfl
  · simp only [createEstimateV2]
    rw [if_neg hn]
    rfl

theorem c8_witness :
    rowsFor (updateEstimateV1 sOwned 10 7 1 emptyEstReq).1.estimate_items 1 = []
    ∧ rowsFor (updateEstimateV1 sOwned 10 7 1 emptyEstReq).1.custom_estimate_items 1 = []
    ∧ ∃ r, lookupRow (updateEstimateV1 sOwned 10 7 1 emptyEstReq).1.estimates 1 = some r
        ∧ r.total = .fin 0 := by
  have h2 : (updateEstimateV1 sOwned 10 7 1 emptyEstReq).2 = Except.ok 1 := by
    have hn : ¬ 150 < ((toStringJs emptyEstReq.notes).trim).length := by
      rw [show (toStringJs emptyEstReq.notes).trim = "" from trim_empty]
      decide
    simp only [updateEstimateV1]
    rw [if_neg hn]
    rfl
  exact c8_update_empty_lines sOwned 10 7 1 emptyEstReq _ 1 eFix rfl rfl rfl
    (by rw [← h2])

theorem c1_witness :
    (∀ e, (Except.ok 1 : Except String ℕ) = .error e
        → (convertToInvoiceV1 sOwned 20 7 1 convReqFix).1 = sOwned)
    ∧ (∀ invId, (Except.ok 1 : Except String ℕ) = .ok invId →
        lookupRow (convertToInvoiceV1 sOwned 20 7 1 convReqFix).1.estimates 1 = none
        ∧ rowsFor (convertToInvoiceV1 sOwned 20 7 1 convReqFix).1.estimate_items 1 = []
        ∧ rowsFor (convertToInvoiceV1 sOwned 20 7 1 convReqFix).1.custom_estimate_items 1 = []
        ∧ rowsFor (convertToInvoiceV1 sOwned 20 7 1 convReqFix).1.invoice_items invId
            = (resolvedEstLines sOwned.catalog
                (rowsFor sOwned.estimate_items 1)).map convInvRowOf
        ∧ rowsFor (convertToInvoiceV1 sOwned 20 7 1 convReqFix).1.custom_invoice_items invId
            = (rowsFor sOwned.custom_estimate_items 1).map convCustomRowOf) := by
  have h2 : (convertToInvoiceV1 sOwned 20 7 1 convReqFix).2 = Except.ok 1 := rfl
  exact c1_convert_atomic sOwned 20 7 1 convReqFix _ (.ok 1) (by decide)
    (by rw [← h2])

end PrintShop
